import Mathlib

/-!
Verification development for the IBT in-browser 3D scene viewer.

This file gives a shallow embedding of the algorithmic core of the
repository — the OBJ/MTL parser (`ObjParser`, src/unnamed/part_004), the
tangent generation of `Mesh` (src/src/mesh.js), the `Camera` projection
state machine (src/src/camera.js) and the `LightField` camera grid
(src/src/lightField.js) — and proves the specification's claims about it.

Modelling conventions:
* JS `number` values that are only moved around (never combined in ways
  where rounding matters for the claims) are modelled as `ℚ`.
* Lines of the OBJ/MTL text are modelled after tokenization: the source
  splits a line at whitespace and applies `parseFloat` / `parseInt`; here a
  line arrives as an `ObjLine` already carrying the parsed numeric fields
  (and face-vertex tokens as the list of their non-empty `/`-separated
  sub-indices, mirroring `vertex.split('/').filter(v => v !== "")`).
* A JS operation that throws is modelled as `Option`/`Except`: `none` /
  `.error` where the original raises, and the raised condition is carried
  in the error value.
* External library functions whose numeric output does not matter to any
  claim (`Math.sqrt`, `Math.hypot`, `Math.tan`) are taken as function
  parameters of the corresponding definitions.
-/

namespace IBT

/-- One attribute pool (`#objPositions`, `#objTexcoords`, `#objNormals`,
`#objColors`): a growable list of per-entry float tuples. -/
abbrev Pool := List (List ℚ)

/-- A geometry under construction: object name, material name and the four
expanded output arrays (`#webglVertexData` aliases `data.position` /
`data.texcoord` / `data.normal` / `data.color` of the current geometry). -/
structure Geometry where
  object : String
  material : String
  position : List ℚ
  texcoord : List ℚ
  normal : List ℚ
  color : List ℚ
deriving DecidableEq, Repr

/-- A tokenized line of the OBJ/MTL input.  `v`/`vn`/`vt` carry the parsed
numeric fields; `f` carries one token per referenced vertex, each token
being the list of its non-empty `/`-separated integer sub-indices;
`usemtl`/`mtllib`/`o` carry the raw trailing string.  MTL material
directives and unrecognized keywords only touch the materials table or
nothing at all, never the geometry state modelled here; they are lumped
into `other`. -/
inductive ObjLine where
  | v (data : List ℚ)
  | vn (data : List ℚ)
  | vt (data : List ℚ)
  | f (data : List (List Int))
  | usemtl (name : String)
  | mtllib (name : String)
  | o (name : String)
  | other
deriving DecidableEq, Repr

/-- The parser state (the private fields of `ObjParser`). -/
structure PState where
  objPositions : Pool
  objTexcoords : Pool
  objNormals : Pool
  objColors : Pool
  geometry : Option Geometry
  doneGeometries : List Geometry
  material : String
  object : String
  materialLibs : List String
deriving DecidableEq, Repr

/-- `init()`: each pool pre-seeded with one sentinel zero entry so 1-based
OBJ indices map directly. -/
def initState : PState :=
  { objPositions := [[0, 0, 0]]
    objTexcoords := [[0, 0]]
    objNormals := [[0, 0, 0]]
    objColors := [[0, 0, 0]]
    geometry := none
    doneGeometries := []
    material := "default"
    object := "default"
    materialLibs := [] }

/-- `const index = objIndex + (objIndex >= 0 ? 0 : pool.length)` from
`#addVertex`. -/
def resolveIdx (objIndex : Int) (poolLen : Nat) : Int :=
  objIndex + (if 0 ≤ objIndex then 0 else (poolLen : Int))

/-- Array access `pool[index]`: `none` where JS yields `undefined` (and the
subsequent spread `push(...undefined)` throws). -/
def poolGet (pool : Pool) (idx : Int) : Option (List ℚ) :=
  if idx < 0 then none else pool[idx.toNat]?

/-- Mutation of the current geometry (`this.#geometry.data....push(...)`);
fails when there is no current geometry (unreachable from `parseObj`,
which always runs `#setGeometry` before `#addVertex`). -/
def modifyCurrent (s : PState) (fn : Geometry → Geometry) : Option PState :=
  match s.geometry with
  | none => none
  | some g => some { s with geometry := some (fn g) }

/-- One step of the `forEach` in `#addVertex`: sub-index position `i`
selects the pool (`#objVertexData[i]`) and the matching output array; for
`i = 0` a per-vertex color is expanded in parallel when the color pool has
more than the sentinel entry. -/
def addVertexComp (s : PState) (i : Nat) (objIndex : Int) : Option PState := do
  let pool ← match i with
    | 0 => some s.objPositions
    | 1 => some s.objTexcoords
    | 2 => some s.objNormals
    | 3 => some s.objColors
    | _ => none
  let index := resolveIdx objIndex pool.length
  let entry ← poolGet pool index
  let s' ← match i with
    | 0 => modifyCurrent s (fun g => { g with position := g.position ++ entry })
    | 1 => modifyCurrent s (fun g => { g with texcoord := g.texcoord ++ entry })
    | 2 => modifyCurrent s (fun g => { g with normal := g.normal ++ entry })
    | _ => modifyCurrent s (fun g => { g with color := g.color ++ entry })
  if i = 0 ∧ 1 < s.objColors.length then
    let centry ← poolGet s.objColors index
    modifyCurrent s' (fun g => { g with color := g.color ++ centry })
  else
    some s'

/-- The `forEach` of `#addVertex`, carrying the running sub-index position. -/
def addVertexAux : PState → Nat → List Int → Option PState
  | s, _, [] => some s
  | s, i, c :: rest => (addVertexComp s i c).bind (fun s' => addVertexAux s' (i + 1) rest)

/-- `#addVertex(vertex)`: process the token's sub-indices in order. -/
def addVertex (tok : List Int) (s : PState) : Option PState :=
  addVertexAux s 0 tok

/-- One iteration of the triangle loop in the `f` case of `#addObjData`:
`#addVertex(data[0]); #addVertex(data[triangle + 1]);
#addVertex(data[triangle + 2])`. -/
def fanStep (data : List (List Int)) (s : PState) (triangle : Nat) : Option PState := do
  let s ← addVertex (data.getD 0 []) s
  let s ← addVertex (data.getD (triangle + 1) []) s
  addVertex (data.getD (triangle + 2) []) s

/-- `#setGeometry()`: lazily create the current geometry from the current
object and material names, with fresh empty output arrays. -/
def setGeometry (s : PState) : PState :=
  match s.geometry with
  | some _ => s
  | none =>
    { s with geometry := some { object := s.object, material := s.material,
                                position := [], texcoord := [], normal := [], color := [] } }

/-- `#newGeometry()`: close the current geometry only if it already holds
position data; an empty current geometry is reused. -/
def newGeometry (s : PState) : PState :=
  match s.geometry with
  | none => s
  | some g =>
    if g.position.length ≠ 0 then
      { s with geometry := none, doneGeometries := s.doneGeometries ++ [g] }
    else
      s

/-- `#addObjData(keyword, data, unparsedArguments)`: the per-line dispatch. -/
def addObjData (s : PState) (line : ObjLine) : Option PState :=
  match line with
  | .v data =>
    if 3 < data.length then
      some { s with objPositions := s.objPositions ++ [data.take 3],
                    objColors := s.objColors ++ [data.drop 3] }
    else
      some { s with objPositions := s.objPositions ++ [data] }
  | .vn data => some { s with objNormals := s.objNormals ++ [data] }
  | .vt data =>
    if data.length = 2 then
      some { s with objTexcoords := s.objTexcoords ++ [data] }
    else
      some s
  | .f data =>
    (List.range (data.length - 2)).foldlM (fanStep data) (setGeometry s)
  | .usemtl name => some (newGeometry { s with material := name })
  | .mtllib name => some (newGeometry { s with materialLibs := s.materialLibs ++ [name] })
  | .o name => some (newGeometry { s with object := name })
  | .other => some s

/-- A geometry after the post-pass of `parseObj`, which drops any output
array that ended up empty (`Object.entries(...).filter(([, array]) =>
array.length > 0)`). -/
structure FinalGeometry where
  object : String
  material : String
  position : Option (List ℚ)
  texcoord : Option (List ℚ)
  normal : Option (List ℚ)
  color : Option (List ℚ)
deriving DecidableEq, Repr

/-- Keep an output array only when non-empty. -/
def keepNonEmpty (a : List ℚ) : Option (List ℚ) :=
  if 0 < a.length then some a else none

/-- The post-pass applied to one geometry. -/
def finalizeGeometry (g : Geometry) : FinalGeometry :=
  { object := g.object, material := g.material,
    position := keepNonEmpty g.position, texcoord := keepNonEmpty g.texcoord,
    normal := keepNonEmpty g.normal, color := keepNonEmpty g.color }

/-- `parseObj`: fold the line dispatch over the input and run the
post-pass.  The materials/texture resolution part of the source post-pass
only rewrites the materials table and is not modelled. -/
def parseObj (lines : List ObjLine) : Option (List FinalGeometry) := do
  let s ← lines.foldlM addObjData initState
  pure ((s.doneGeometries ++ s.geometry.toList).map finalizeGeometry)

/-- The pool selected by sub-index position `i` (`#objVertexData[i]`). -/
def poolAt (s : PState) : Nat → Pool
  | 0 => s.objPositions
  | 1 => s.objTexcoords
  | 2 => s.objNormals
  | _ => s.objColors

/-- Floats the token appends to the position output array. -/
def posEntry (s : PState) (tok : List Int) : List ℚ :=
  (poolGet s.objPositions (resolveIdx (tok.headD 0) s.objPositions.length)).getD []

/-- Floats the token appends to the texcoord output array. -/
def texEntry (s : PState) (tok : List Int) : List ℚ :=
  if 2 ≤ tok.length then
    (poolGet s.objTexcoords (resolveIdx (tok.getD 1 0) s.objTexcoords.length)).getD []
  else []

/-- Floats the token appends to the normal output array. -/
def normEntry (s : PState) (tok : List Int) : List ℚ :=
  if 3 ≤ tok.length then
    (poolGet s.objNormals (resolveIdx (tok.getD 2 0) s.objNormals.length)).getD []
  else []

/-- Floats the token appends to the color output array (only when the
color pool holds more than the sentinel; the lookup reuses the resolved
position index). -/
def colEntry (s : PState) (tok : List Int) : List ℚ :=
  if 1 < s.objColors.length then
    (poolGet s.objColors (resolveIdx (tok.headD 0) s.objPositions.length)).getD []
  else []

/-- All lookups performed by `#addVertex(tok)` succeed, and the token has
the well-formed `pos[/tex[/norm]]` arity. -/
def TokenOK (s : PState) (tok : List Int) : Prop :=
  tok ≠ [] ∧ tok.length ≤ 3 ∧
  (∀ i < tok.length,
    (poolGet (poolAt s i) (resolveIdx (tok.getD i 0) (poolAt s i).length)).isSome) ∧
  (1 < s.objColors.length →
    (poolGet s.objColors (resolveIdx (tok.headD 0) s.objPositions.length)).isSome)

instance (s : PState) (tok : List Int) : Decidable (TokenOK s tok) := by
  unfold TokenOK; infer_instance

/-- The position floats an `f` line appends: the fan over triangles
`t = 0 .. N-3`, each contributing the expansions of tokens `0`, `t+1`,
`t+2`. -/
def fanData (s : PState) (data : List (List Int)) : List ℚ :=
  (List.range (data.length - 2)).flatMap (fun t =>
    posEntry s (data.getD 0 []) ++ posEntry s (data.getD (t + 1) [])
      ++ posEntry s (data.getD (t + 2) []))

/-- Pool sizes as tracked line-by-line by the well-formedness predicate. -/
structure Counts where
  nPos : Nat
  nTex : Nat
  nNorm : Nat
  nCol : Nat
deriving DecidableEq, Repr

/-- Pool sizes right after `init()`: one sentinel entry each. -/
def initCounts : Counts := ⟨1, 1, 1, 1⟩

/-- How one line changes the pool sizes. -/
def countsStep (colorful : Bool) (c : Counts) : ObjLine → Counts
  | .v _ => if colorful then { c with nPos := c.nPos + 1, nCol := c.nCol + 1 }
            else { c with nPos := c.nPos + 1 }
  | .vn _ => { c with nNorm := c.nNorm + 1 }
  | .vt d => if d.length = 2 then { c with nTex := c.nTex + 1 } else c
  | _ => c

/-- The pool size sub-index position `i` is resolved against. -/
def dimAt (c : Counts) : Nat → Nat
  | 0 => c.nPos
  | 1 => c.nTex
  | 2 => c.nNorm
  | _ => c.nCol

/-- A sub-index resolves in bounds for a pool of `n` entries. -/
def indexWF (n : Nat) (idx : Int) : Prop :=
  0 ≤ resolveIdx idx n ∧ (resolveIdx idx n).toNat < n

instance (n : Nat) (idx : Int) : Decidable (indexWF n idx) := by
  unfold indexWF; infer_instance

/-- A face token has exactly `L` sub-indices, all resolving in bounds. -/
def tokenWF (L : Nat) (c : Counts) (tok : List Int) : Prop :=
  tok.length = L ∧ ∀ i < tok.length, indexWF (dimAt c i) (tok.getD i 0)

instance (L : Nat) (c : Counts) (tok : List Int) : Decidable (tokenWF L c tok) := by
  unfold tokenWF; infer_instance

/-- Well-formedness of one line given the pool sizes so far. -/
def lineWF (colorful : Bool) (L : Nat) (c : Counts) : ObjLine → Prop
  | .v d => d.length = if colorful then 6 else 3
  | .vn d => d.length = 3
  | .f data => (colorful = true → 1 < c.nPos) ∧ ∀ tok ∈ data, tokenWF L c tok
  | _ => True

instance (colorful : Bool) (L : Nat) (c : Counts) (line : ObjLine) :
    Decidable (lineWF colorful L c line) := by
  cases line <;> (unfold lineWF; infer_instance)

/-- Well-formedness of a whole input, threading the pool sizes. -/
def inputWF (colorful : Bool) (L : Nat) : Counts → List ObjLine → Prop
  | _, [] => True
  | c, line :: rest =>
    lineWF colorful L c line ∧ inputWF colorful L (countsStep colorful c line) rest

instance inputWFDec (colorful : Bool) (L : Nat) :
    (c : Counts) → (lines : List ObjLine) → Decidable (inputWF colorful L c lines)
  | _, [] => .isTrue trivial
  | c, line :: rest => by
    unfold inputWF
    have := inputWFDec colorful L (countsStep colorful c line) rest
    infer_instance

/-- The per-geometry shape invariant: some vertex count `m` explains all
four output array lengths. -/
def GeomInv (colorful : Bool) (L : Nat) (g : Geometry) : Prop :=
  ∃ m, g.position.length = 3 * m
    ∧ g.texcoord.length = (if 2 ≤ L then 2 * m else 0)
    ∧ g.normal.length = (if 3 ≤ L then 3 * m else 0)
    ∧ g.color.length = (if colorful then 3 * m else 0)

/-- The parser-state invariant maintained across well-formed lines. -/
structure StateInv (colorful : Bool) (L : Nat) (c : Counts) (s : PState) : Prop where
  posLen : s.objPositions.length = c.nPos
  texLen : s.objTexcoords.length = c.nTex
  normLen : s.objNormals.length = c.nNorm
  colLen : s.objColors.length = c.nCol
  posArity : ∀ e ∈ s.objPositions, e.length = 3
  texArity : ∀ e ∈ s.objTexcoords, e.length = 2
  normArity : ∀ e ∈ s.objNormals, e.length = 3
  colArity : ∀ e ∈ s.objColors, e.length = 3
  colorfulEq : colorful = true → c.nCol = c.nPos
  plainCol : colorful = false → c.nCol = 1
  doneInv : ∀ g ∈ s.doneGeometries, GeomInv colorful L g
  curInv : ∀ g ∈ s.geometry.toList, GeomInv colorful L g

/-- Shape of one finalized output array: if kept, it is non-empty and
holds `comp` floats for each of the geometry's `m` vertices. -/
def OptArr (o : Option (List ℚ)) (comp m : Nat) : Prop :=
  match o with
  | none => True
  | some a => a ≠ [] ∧ a.length = comp * m

/-- An RGBA picking color. -/
structure RGBA where
  r : Nat
  g : Nat
  b : Nat
  a : Nat
deriving DecidableEq, Repr

/-- `LightFieldCamera.selectedColor = [255, 0, 0, 255]`. -/
def selectedColor : RGBA := ⟨255, 0, 0, 255⟩

/-- One light-field camera: its position (from the `Camera` superclass;
the other transform fields play no role in the grid logic), the selection
flag and the picking color (`undefined` until first assigned). -/
structure LFCam where
  posX : ℚ
  posY : ℚ
  posZ : ℚ
  selected : Bool
  color : Option RGBA
deriving DecidableEq, Repr

/-- `new LightFieldCamera(x, y, z)`: `selected = false`, no color yet. -/
def mkLFCam (x y z : ℚ) : LFCam :=
  { posX := x, posY := y, posZ := z, selected := false, color := none }

/-- The `LightField` state: anchor position (from `SceneObject`), grid
dimensions, camera spacing and the 2D camera array. -/
structure LFState where
  posX : ℚ
  posY : ℚ
  posZ : ℚ
  horizontalCamerasCount : Nat
  verticalCamerasCount : Nat
  horizontalCameraSpace : ℚ
  verticalCameraSpace : ℚ
  grid : List (List LFCam)
deriving DecidableEq, Repr

/-- The `LightField` constructor: counts 8, spacing 0.7, empty array. -/
def mkLightField (x y z : ℚ) : LFState :=
  { posX := x, posY := y, posZ := z,
    horizontalCamerasCount := 8, verticalCamerasCount := 8,
    horizontalCameraSpace := 7/10, verticalCameraSpace := 7/10, grid := [] }

/-- Grid failure conditions: `typeError` is JS's own `TypeError` from
indexing into `undefined` (row out of range); `invalidCameraIndex` is the
typed `InvalidCameraIndexException` thrown by `getCamera`. -/
inductive GridError where
  | typeError
  | invalidCameraIndex
deriving DecidableEq, Repr

/-- `getCamera(row, column)` reads `#cameraArray[row][column]`.  A row out
of range makes `#cameraArray[row]` `undefined`, so the column access
throws a `TypeError`; with a valid row an out-of-range column yields
`undefined`, which is falsy, so the typed exception is thrown. -/
def getCamera (grid : List (List LFCam)) (row column : Nat) : Except GridError LFCam :=
  match grid[row]? with
  | none => .error .typeError
  | some cams =>
    match cams[column]? with
    | none => .error .invalidCameraIndex
    | some cam => .ok cam

/-- Column indices of `true` flags, in visit order. -/
def selCols : List Bool → List Nat
  | [] => []
  | b :: rest => (if b then [0] else []) ++ (selCols rest).map (· + 1)

/-- Row-major `(row, column)` pairs of `true` flags. -/
def selPairsB : List (List Bool) → List (Nat × Nat)
  | [] => []
  | row :: rest =>
    (selCols row).map (fun c => (0, c)) ++ (selPairsB rest).map (fun p => (p.1 + 1, p.2))

/-- The selection flags of a grid. -/
def boolGrid (grid : List (List LFCam)) : List (List Bool) :=
  grid.map (fun row => row.map (·.selected))

/-- What the `selectedCameraIndex` getter collects, as `(row, column)`
pairs in row-major visit order (the source pushes the two components into
one flat array; `selectedCamera` returns the camera of the last pair). -/
def selPairs (grid : List (List LFCam)) : List (Nat × Nat) :=
  selPairsB (boolGrid grid)

/-- Number of selected cameras in a grid. -/
def countSelected (grid : List (List LFCam)) : Nat :=
  (selPairs grid).length

/-- In-place update of one array element (JS mutation of `array[i]`;
out-of-range indices leave the array unchanged). -/
def listModify {α : Type} (fn : α → α) : Nat → List α → List α
  | _, [] => []
  | 0, x :: rest => fn x :: rest
  | n + 1, x :: rest => x :: listModify fn n rest

/-- Write the selection flag of the camera at `(row, column)`. -/
def setFlag (grid : List (List LFCam)) (row column : Nat) (b : Bool) : List (List LFCam) :=
  listModify (fun cams => listModify (fun cam => { cam with selected := b }) column cams)
    row grid

/-- `if (this.selectedCamera) { this.selectedCamera.selected = false; }`:
the `selectedCamera` getter yields the last selected camera in row-major
order, whose flag is then cleared. -/
def clearSelected (grid : List (List LFCam)) : List (List LFCam) :=
  match (selPairs grid).getLast? with
  | none => grid
  | some p => setFlag grid p.1 p.2 false

/-- One increment of the walking picking color: `iterator % 3` selects the
channel (`#updateCameraColors`). -/
def bumpColor (iterator : Nat) (c : RGBA) : RGBA :=
  if iterator % 3 = 0 then { c with r := c.r + 1 }
  else if iterator % 3 = 1 then { c with g := c.g + 1 }
  else { c with b := c.b + 1 }

/-- `#updateCameraColors` along one row, threading the 1-based iterator
and the walking color: the selected camera gets the reserved highlight
color, every other camera a copy of the freshly bumped walking color. -/
def updateCamsList : Nat → RGBA → List LFCam → List LFCam × Nat × RGBA
  | it, c, [] => ([], it, c)
  | it, c, cam :: rest =>
    if cam.selected then
      let out := updateCamsList (it + 1) c rest
      ({ cam with color := some selectedColor } :: out.1, out.2)
    else
      let c1 := bumpColor it c
      let out := updateCamsList (it + 1) c1 rest
      ({ cam with color := some c1 } :: out.1, out.2)

/-- `#updateCameraColors` over all rows. -/
def updateCamsRows : Nat → RGBA → List (List LFCam) → List (List LFCam) × Nat × RGBA
  | it, c, [] => ([], it, c)
  | it, c, row :: rest =>
    let o1 := updateCamsList it c row
    let o2 := updateCamsRows o1.2.1 o1.2.2 rest
    (o1.1 :: o2.1, o2.2)

/-- `#updateCameraColors()`: iterator starts at 1 with walking color
`[0, 0, 0, 255]`. -/
def updateCameraColors (grid : List (List LFCam)) : List (List LFCam) :=
  (updateCamsRows 1 ⟨0, 0, 0, 255⟩ grid).1

/-- `setSelectedCamera(row, column)`, with possibly-`undefined` indices
(the destructuring in `initCameras` produces `undefined` when no camera
was selected).  The previous selection is cleared first; then the
`getCamera` read may throw — an `undefined` or out-of-range row indexes
into `undefined` (`TypeError`), a defined row with `undefined` or
out-of-range column reads a falsy cell (typed exception).  On success the
new flag is set and every camera's color reassigned. -/
def setSelectedCameraO (s : LFState) (row? col? : Option Nat) : LFState × Option GridError :=
  let g1 := clearSelected s.grid
  match row?, col? with
  | some row, some col =>
    match getCamera g1 row col with
    | .error e => ({ s with grid := g1 }, some e)
    | .ok _ =>
      ({ s with grid := updateCameraColors (setFlag g1 row col true) }, none)
  | none, _ => ({ s with grid := g1 }, some .typeError)
  | some row, none =>
    match g1[row]? with
    | none => ({ s with grid := g1 }, some .typeError)
    | some _ => ({ s with grid := g1 }, some .invalidCameraIndex)

/-- `setSelectedCamera` with definite indices. -/
def setSelectedCamera (s : LFState) (row column : Nat) : LFState × Option GridError :=
  setSelectedCameraO s (some row) (some column)

/-- The camera-creation loops of `initCameras`: row-major positions from
the anchor, `x` advancing by `horizontalCameraSpace` per column and `y`
falling by `verticalCameraSpace` per row (closed form of the running
accumulators). -/
def buildGrid (posX posY posZ hSpace vSpace : ℚ) (h v : Nat) : List (List LFCam) :=
  (List.range v).map (fun (row : Nat) =>
    (List.range h).map (fun (column : Nat) =>
      mkLFCam (posX + (column : ℚ) * hSpace) (posY - (row : ℚ) * vSpace) posZ))

/-- `initCameras(horizontalCamerasCount, verticalCamerasCount)`: read the
previous selection (`(0, 0)` for a fresh grid; destructuring an empty
index array gives `undefined` components), rebuild the grid, then restore
the selection inside `try`, falling back to `setSelectedCamera(0, 0)` on
any thrown condition.  The second component is an error escaping
`initCameras` itself, possible only when the fallback also throws (empty
new grid).  `rebuildState` is the middle step: store the new counts and
recreate the camera array. -/
def rebuildState (s : LFState) (h v : Nat) : LFState :=
  { s with horizontalCamerasCount := h, verticalCamerasCount := v,
           grid := buildGrid s.posX s.posY s.posZ
             s.horizontalCameraSpace s.verticalCameraSpace h v }

def initCameras (s : LFState) (h v : Nat) : LFState × Option GridError :=
  let sel : Option Nat × Option Nat :=
    if s.grid.length = 0 then (some 0, some 0)
    else
      match selPairs s.grid with
      | p :: _ => (some p.1, some p.2)
      | [] => (none, none)
  match setSelectedCameraO (rebuildState s h v) sel.1 sel.2 with
  | (s2, none) => (s2, none)
  | (s2, some _) => setSelectedCameraO s2 (some 0) (some 0)

/-- Colors of the non-selected cameras, in row-major order. -/
def nonSelColors (grid : List (List LFCam)) : List (Option RGBA) :=
  ((grid.flatten).filter (fun cam => !cam.selected)).map (fun cam => cam.color)

/-- Sum of the three color channels of the walking picking color. -/
def rgbsum (c : RGBA) : Nat := c.r + c.g + c.b

/-- A Bool grid with every flag false. -/
def allFalseB (bg : List (List Bool)) : Prop :=
  ∀ row ∈ bg, ∀ x ∈ row, x = false

/-- Colors of the non-selected cameras of one row, in order. -/
def nonSelColorsRow (cams : List LFCam) : List (Option RGBA) :=
  (cams.filter (fun cam => !cam.selected)).map (fun cam => cam.color)

/-- Strict ordering of assigned walking colors by channel sum. -/
def colorLt (o1 o2 : Option RGBA) : Prop :=
  ∃ c1 c2, o1 = some c1 ∧ o2 = some c2 ∧ rgbsum c1 < rgbsum c2

/-- `Array.prototype.slice(a, b)` on a number array. -/
def sliceJS (l : List ℚ) (a b : Nat) : List ℚ := (l.drop a).take (b - a)

/-- Component read of a gl-matrix vector.  An out-of-range read is
`undefined` in JS; the claims are stated on full slices, where the
default is never consulted. -/
def comp (l : List ℚ) (i : Nat) : ℚ := l.getD i 0

/-- `vec3.subtract`. -/
def vsub3 (a b : List ℚ) : List ℚ :=
  [comp a 0 - comp b 0, comp a 1 - comp b 1, comp a 2 - comp b 2]

/-- `vec2.subtract`. -/
def vsub2 (a b : List ℚ) : List ℚ :=
  [comp a 0 - comp b 0, comp a 1 - comp b 1]

/-- `vec3.scale`. -/
def vscale3 (a : List ℚ) (s : ℚ) : List ℚ :=
  [comp a 0 * s, comp a 1 * s, comp a 2 * s]

/-- `vec3.normalize` (gl-matrix): `len > 0` guards the `1 / sqrt` step,
so a zero vector normalizes to zero instead of dividing by zero. -/
def vnormalize3 (sqrtq : ℚ → ℚ) (a : List ℚ) : List ℚ :=
  let x := comp a 0
  let y := comp a 1
  let z := comp a 2
  let len0 := x * x + y * y + z * z
  let len := if 0 < len0 then 1 / sqrtq len0 else len0
  [x * len, y * len, z * len]

/-- The UV-delta determinant `duv12[0]*duv13[1] - duv13[0]*duv12[1]` of
face `i` (`#createUnindexedIterator` hands face `i` the consecutive
vertex indices `3i, 3i+1, 3i+2`). -/
def faceDet (texcoord : List ℚ) (i : Nat) : ℚ :=
  let uv1 := sliceJS texcoord (3 * i * 2) (3 * i * 2 + 2)
  let uv2 := sliceJS texcoord ((3 * i + 1) * 2) ((3 * i + 1) * 2 + 2)
  let uv3 := sliceJS texcoord ((3 * i + 2) * 2) ((3 * i + 2) * 2 + 2)
  let duv12 := vsub2 uv2 uv1
  let duv13 := vsub2 uv3 uv1
  comp duv12 0 * comp duv13 1 - comp duv13 0 * comp duv12 1

/-- One loop iteration of `#generateTangents`: the tangent pushed for
each of the three vertices of face `i`.  `f = 1 / det` is non-finite
exactly when the determinant is zero (over floats `1 / 0` is `Infinity`),
so the `Number.isFinite(f)` guard becomes `det ≠ 0`. -/
def faceTangent (sqrtq : ℚ → ℚ) (position texcoord : List ℚ) (i : Nat) : List ℚ :=
  let p1 := sliceJS position (3 * i * 3) (3 * i * 3 + 3)
  let p2 := sliceJS position ((3 * i + 1) * 3) ((3 * i + 1) * 3 + 3)
  let p3 := sliceJS position ((3 * i + 2) * 3) ((3 * i + 2) * 3 + 3)
  let uv1 := sliceJS texcoord (3 * i * 2) (3 * i * 2 + 2)
  let uv2 := sliceJS texcoord ((3 * i + 1) * 2) ((3 * i + 1) * 2 + 2)
  let uv3 := sliceJS texcoord ((3 * i + 2) * 2) ((3 * i + 2) * 2 + 2)
  let dp12 := vsub3 p2 p1
  let dp13 := vsub3 p3 p1
  let duv12 := vsub2 uv2 uv1
  let duv13 := vsub2 uv3 uv1
  let det := comp duv12 0 * comp duv13 1 - comp duv13 0 * comp duv12 1
  if det = 0 then [1, 0, 0]
  else
    vnormalize3 sqrtq
      (vscale3 (vsub3 (vscale3 dp12 (comp duv13 1)) (vscale3 dp13 (comp duv12 1)))
        (1 / det))

/-- `#generateTangents`: `numFaces = (position.length / 3) / 3` is a
float, so the `i < numFaces` loop body runs `⌈position.length / 9⌉`
times; each iteration pushes the face tangent three times. -/
def generateTangents (sqrtq : ℚ → ℚ) (position texcoord : List ℚ) : List ℚ :=
  (List.range ((position.length + 8) / 9)).flatMap
    (fun i =>
      faceTangent sqrtq position texcoord i ++ faceTangent sqrtq position texcoord i
        ++ faceTangent sqrtq position texcoord i)

/-- Opaque real functions of the camera code, passed as parameters:
`tanq`/`sqrtq` stand for `Math.tan`/`Math.sqrt`, `cosd d`/`sind d` for
`Math.cos(glMatrix.toRadian(d))`/`Math.sin(glMatrix.toRadian(d))` (the
radian conversion is irrational and is absorbed into the opaque
parameter), `hypotq` for the three-argument `Math.hypot`. -/
structure MathFns where
  tanq : ℚ → ℚ
  cosd : ℚ → ℚ
  sind : ℚ → ℚ
  sqrtq : ℚ → ℚ
  hypotq : ℚ → ℚ → ℚ → ℚ

/-- `mat4.create()`: the 4×4 identity, column-major. -/
def mat4create : List ℚ := [1, 0, 0, 0, 0, 1, 0, 0, 0, 0, 1, 0, 0, 0, 0, 1]

/-- `mat4.multiply(out, a, b)` (gl-matrix, column-major). -/
def mat4multiply (a b : List ℚ) : List ℚ :=
  let a00 := comp a 0; let a01 := comp a 1; let a02 := comp a 2; let a03 := comp a 3
  let a10 := comp a 4; let a11 := comp a 5; let a12 := comp a 6; let a13 := comp a 7
  let a20 := comp a 8; let a21 := comp a 9; let a22 := comp a 10; let a23 := comp a 11
  let a30 := comp a 12; let a31 := comp a 13; let a32 := comp a 14; let a33 := comp a 15
  [comp b 0 * a00 + comp b 1 * a10 + comp b 2 * a20 + comp b 3 * a30,
   comp b 0 * a01 + comp b 1 * a11 + comp b 2 * a21 + comp b 3 * a31,
   comp b 0 * a02 + comp b 1 * a12 + comp b 2 * a22 + comp b 3 * a32,
   comp b 0 * a03 + comp b 1 * a13 + comp b 2 * a23 + comp b 3 * a33,
   comp b 4 * a00 + comp b 5 * a10 + comp b 6 * a20 + comp b 7 * a30,
   comp b 4 * a01 + comp b 5 * a11 + comp b 6 * a21 + comp b 7 * a31,
   comp b 4 * a02 + comp b 5 * a12 + comp b 6 * a22 + comp b 7 * a32,
   comp b 4 * a03 + comp b 5 * a13 + comp b 6 * a23 + comp b 7 * a33,
   comp b 8 * a00 + comp b 9 * a10 + comp b 10 * a20 + comp b 11 * a30,
   comp b 8 * a01 + comp b 9 * a11 + comp b 10 * a21 + comp b 11 * a31,
   comp b 8 * a02 + comp b 9 * a12 + comp b 10 * a22 + comp b 11 * a32,
   comp b 8 * a03 + comp b 9 * a13 + comp b 10 * a23 + comp b 11 * a33,
   comp b 12 * a00 + comp b 13 * a10 + comp b 14 * a20 + comp b 15 * a30,
   comp b 12 * a01 + comp b 13 * a11 + comp b 14 * a21 + comp b 15 * a31,
   comp b 12 * a02 + comp b 13 * a12 + comp b 14 * a22 + comp b 15 * a32,
   comp b 12 * a03 + comp b 13 * a13 + comp b 14 * a23 + comp b 15 * a33]

/-- `mat4.perspective(out, fovy, aspect, near, far)` with a finite
`far` (the code always passes finite planes). -/
def mat4perspective (tanq : ℚ → ℚ) (fovy aspect near far : ℚ) : List ℚ :=
  let f := 1 / tanq (fovy / 2)
  let nf := 1 / (near - far)
  [f / aspect, 0, 0, 0,
   0, f, 0, 0,
   0, 0, (far + near) * nf, -1,
   0, 0, 2 * far * near * nf, 0]

/-- `glMatrix.EPSILON = 0.000001`. -/
def EPSILON : ℚ := 1 / 1000000

/-- `mat4.lookAt(out, eye, center, up)` (gl-matrix): an `eye` within
`EPSILON` of `center` yields the identity; the `z` axis is scaled by
`1 / hypot` unguarded, the `x` and `y` axes fall back to zero when their
norm is zero (`if (!len)`). -/
def mat4lookAt (hypotq : ℚ → ℚ → ℚ → ℚ) (eye center up : List ℚ) : List ℚ :=
  let eyex := comp eye 0; let eyey := comp eye 1; let eyez := comp eye 2
  let upx := comp up 0; let upy := comp up 1; let upz := comp up 2
  let centerx := comp center 0; let centery := comp center 1; let centerz := comp center 2
  if |eyex - centerx| < EPSILON ∧ |eyey - centery| < EPSILON
      ∧ |eyez - centerz| < EPSILON then
    mat4create
  else
    let z0 := eyex - centerx
    let z1 := eyey - centery
    let z2 := eyez - centerz
    let len := 1 / hypotq z0 z1 z2
    let z0 := z0 * len
    let z1 := z1 * len
    let z2 := z2 * len
    let x0 := upy * z2 - upz * z1
    let x1 := upz * z0 - upx * z2
    let x2 := upx * z1 - upy * z0
    let lenx := hypotq x0 x1 x2
    let x0 := if lenx = 0 then 0 else x0 * (1 / lenx)
    let x1 := if lenx = 0 then 0 else x1 * (1 / lenx)
    let x2 := if lenx = 0 then 0 else x2 * (1 / lenx)
    let y0 := z1 * x2 - z2 * x1
    let y1 := z2 * x0 - z0 * x2
    let y2 := z0 * x1 - z1 * x0
    let leny := hypotq y0 y1 y2
    let y0 := if leny = 0 then 0 else y0 * (1 / leny)
    let y1 := if leny = 0 then 0 else y1 * (1 / leny)
    let y2 := if leny = 0 then 0 else y2 * (1 / leny)
    [x0, y0, z0, 0,
     x1, y1, z1, 0,
     x2, y2, z2, 0,
     -(x0 * eyex + x1 * eyey + x2 * eyez),
     -(y0 * eyex + y1 * eyey + y2 * eyez),
     -(z0 * eyex + z1 * eyey + z2 * eyez), 1]

/-- `mat4.translate(out, a, v)` in the `out === a` aliasing used by
`move`: only the last column is rewritten. -/
def mat4translate (a v : List ℚ) : List ℚ :=
  let x := comp v 0
  let y := comp v 1
  let z := comp v 2
  a.take 12 ++
    [comp a 0 * x + comp a 4 * y + comp a 8 * z + comp a 12,
     comp a 1 * x + comp a 5 * y + comp a 9 * z + comp a 13,
     comp a 2 * x + comp a 6 * y + comp a 10 * z + comp a 14,
     comp a 3 * x + comp a 7 * y + comp a 11 * z + comp a 15]

/-- `mat4.invert(out, a)`: `none` models the `null` return on a zero
determinant, where `out` is left untouched. -/
def mat4invert (a : List ℚ) : Option (List ℚ) :=
  let a00 := comp a 0; let a01 := comp a 1; let a02 := comp a 2; let a03 := comp a 3
  let a10 := comp a 4; let a11 := comp a 5; let a12 := comp a 6; let a13 := comp a 7
  let a20 := comp a 8; let a21 := comp a 9; let a22 := comp a 10; let a23 := comp a 11
  let a30 := comp a 12; let a31 := comp a 13; let a32 := comp a 14; let a33 := comp a 15
  let b00 := a00 * a11 - a01 * a10
  let b01 := a00 * a12 - a02 * a10
  let b02 := a00 * a13 - a03 * a10
  let b03 := a01 * a12 - a02 * a11
  let b04 := a01 * a13 - a03 * a11
  let b05 := a02 * a13 - a03 * a12
  let b06 := a20 * a31 - a21 * a30
  let b07 := a20 * a32 - a22 * a30
  let b08 := a20 * a33 - a23 * a30
  let b09 := a21 * a32 - a22 * a31
  let b10 := a21 * a33 - a23 * a31
  let b11 := a22 * a33 - a23 * a32
  let det := b00 * b11 - b01 * b10 + b02 * b09 + b03 * b08 - b04 * b07 + b05 * b06
  if det = 0 then none
  else
    let det := 1 / det
    some [(a11 * b11 - a12 * b10 + a13 * b09) * det,
      (a02 * b10 - a01 * b11 - a03 * b09) * det,
      (a31 * b05 - a32 * b04 + a33 * b03) * det,
      (a22 * b04 - a21 * b05 - a23 * b03) * det,
      (a12 * b08 - a10 * b11 - a13 * b07) * det,
      (a00 * b11 - a02 * b08 + a03 * b07) * det,
      (a32 * b02 - a30 * b05 - a33 * b01) * det,
      (a20 * b05 - a22 * b02 + a23 * b01) * det,
      (a10 * b10 - a11 * b08 + a13 * b06) * det,
      (a01 * b08 - a00 * b10 - a03 * b06) * det,
      (a30 * b04 - a31 * b02 + a33 * b00) * det,
      (a21 * b02 - a20 * b04 - a23 * b00) * det,
      (a11 * b07 - a10 * b09 - a12 * b06) * det,
      (a00 * b09 - a01 * b07 + a02 * b06) * det,
      (a31 * b01 - a30 * b03 - a32 * b00) * det,
      (a20 * b03 - a21 * b01 + a22 * b00) * det]

/-- The `Camera` instance fields; `_projectionMatrix` is `undefined`
until `setPerspective` first assigns it. -/
structure Camera where
  posX : ℚ
  posY : ℚ
  posZ : ℚ
  pitch : ℚ
  yaw : ℚ
  front : List ℚ
  up : List ℚ
  _matrix : List ℚ
  _projectionMatrix : Option (List ℚ)

/-- The `Camera` constructor. -/
def mkCamera (x y z : ℚ) : Camera :=
  { posX := x, posY := y, posZ := z, pitch := 0, yaw := -90,
    front := [0, 0, -1], up := [0, 1, 0],
    _matrix := mat4create, _projectionMatrix := none }

inductive CameraError where
  | invalidCameraState
deriving DecidableEq, Repr

/-- The `viewProjectionMatrix` getter: throws `InvalidCameraStateException`
while `_projectionMatrix === undefined`. -/
def viewProjectionMatrix (c : Camera) : Except CameraError (List ℚ) :=
  match c._projectionMatrix with
  | none => .error .invalidCameraState
  | some pm => .ok (mat4multiply pm c._matrix)

/-- `getWorldViewProjectionMatrix(world)`: multiplies the (possibly
throwing) `viewProjectionMatrix` by the world matrix. -/
def getWorldViewProjectionMatrix (c : Camera) (world : List ℚ) :
    Except CameraError (List ℚ) :=
  match viewProjectionMatrix c with
  | .error e => .error e
  | .ok vp => .ok (mat4multiply vp world)

/-- The `direction` getter: recomputes and normalizes `front`, then
returns `position + front` (it mutates the camera). -/
def directionCalc (mf : MathFns) (c : Camera) : (List ℚ) × (List ℚ) :=
  let fr0 := [mf.cosd c.yaw * mf.cosd c.pitch, mf.sind c.pitch,
    mf.sind c.yaw * mf.cosd c.pitch]
  let fr := vnormalize3 mf.sqrtq fr0
  (fr, [c.posX + comp fr 0, c.posY + comp fr 1, c.posZ + comp fr 2])

/-- `move(position)`: sets the position, rebuilds `_matrix` as the
translation of the identity and inverts it in place (a `null` inversion
leaves the translation matrix). -/
def moveOp (c : Camera) (position : List ℚ) : Camera :=
  let c1 := { c with
    posX := comp position 0
    posY := comp position 1
    posZ := comp position 2 }
  let m1 := mat4translate mat4create position
  let m2 := match mat4invert m1 with
    | none => m1
    | some m => m
  { c1 with _matrix := m2 }

/-- The mutating camera API as an operation alphabet: `setPerspective`,
`lookAt` with explicit or defaulted arguments, `move` with explicit or
defaulted argument, and the `position` setter. -/
inductive CamOp where
  | setPerspective (fov aspect zNear zFar : ℚ)
  | lookAt (target up : List ℚ)
  | lookAtDefault
  | move (pos : List ℚ)
  | moveDefault
  | setPosition (pos : List ℚ)

def isSetPerspective : CamOp → Bool
  | .setPerspective _ _ _ _ => true
  | _ => false

/-- One method call.  `setPerspective` overwrites `_projectionMatrix`
with a fresh perspective matrix; no other method touches it. -/
def applyOp (mf : MathFns) (c : Camera) : CamOp → Camera
  | .setPerspective fov aspect zNear zFar =>
    { c with _projectionMatrix := some (mat4perspective mf.tanq fov aspect zNear zFar) }
  | .lookAt target up =>
    { c with _matrix := mat4lookAt mf.hypotq [c.posX, c.posY, c.posZ] target up }
  | .lookAtDefault =>
    let cd := directionCalc mf c
    let c1 := { c with front := cd.1 }
    { c1 with _matrix := mat4lookAt mf.hypotq [c1.posX, c1.posY, c1.posZ] cd.2 c1.up }
  | .move pos => moveOp c pos
  | .moveDefault => moveOp c [c.posX, c.posY, c.posZ]
  | .setPosition pos =>
    { c with posX := comp pos 0, posY := comp pos 1, posZ := comp pos 2 }

/-- A call history applied to a camera, oldest first. -/
def runOps (mf : MathFns) (c : Camera) (ops : List CamOp) : Camera :=
  ops.foldl (applyOp mf) c

theorem addVertexComp_zero (s : PState) (x : Int) :
    addVertexComp s 0 x =
      (poolGet s.objPositions (resolveIdx x s.objPositions.length)).bind fun entry =>
        (modifyCurrent s (fun g => { g with position := g.position ++ entry })).bind fun s' =>
          if 1 < s.objColors.length then
            (poolGet s.objColors (resolveIdx x s.objPositions.length)).bind fun centry =>
              modifyCurrent s' (fun g => { g with color := g.color ++ centry })
          else some s' := by
  simp [addVertexComp]

theorem addVertexComp_one (s : PState) (x : Int) :
    addVertexComp s 1 x =
      (poolGet s.objTexcoords (resolveIdx x s.objTexcoords.length)).bind fun entry =>
        modifyCurrent s (fun g => { g with texcoord := g.texcoord ++ entry }) := by
  simp [addVertexComp]

theorem addVertexComp_two (s : PState) (x : Int) :
    addVertexComp s 2 x =
      (poolGet s.objNormals (resolveIdx x s.objNormals.length)).bind fun entry =>
        modifyCurrent s (fun g => { g with normal := g.normal ++ entry }) := by
  simp [addVertexComp]

/-- Full characterization of a successful `#addVertex` call: the current
geometry's four output arrays each grow by the token's expansion and
nothing else in the state changes. -/
theorem addVertex_spec (s : PState) (tok : List Int) (g : Geometry)
    (hg : s.geometry = some g) (hok : TokenOK s tok) :
    addVertex tok s =
      some { s with geometry := some ({ g with
                      position := g.position ++ posEntry s tok,
                      texcoord := g.texcoord ++ texEntry s tok,
                      normal := g.normal ++ normEntry s tok,
                      color := g.color ++ colEntry s tok }) } := by
  obtain ⟨hne, hlen, hlook, hcol⟩ := hok
  rcases tok with _ | ⟨a, _ | ⟨b, _ | ⟨c, _ | ⟨d, rest⟩⟩⟩⟩
  · exact absurd rfl hne
  · have h0 := hlook 0 (by simp)
    simp only [poolAt, List.getD_cons_zero] at h0
    obtain ⟨e, he⟩ := Option.isSome_iff_exists.mp h0
    by_cases hc : 1 < s.objColors.length
    · obtain ⟨ce, hce⟩ := Option.isSome_iff_exists.mp (by simpa using hcol hc)
      simp [addVertex, addVertexAux, addVertexComp_zero, he, hce, modifyCurrent, hg, hc,
            posEntry, texEntry, normEntry, colEntry]
    · simp [addVertex, addVertexAux, addVertexComp_zero, he, modifyCurrent, hg, hc,
            posEntry, texEntry, normEntry, colEntry]
  · have h0 := hlook 0 (by simp)
    have h1 := hlook 1 (by simp)
    simp only [poolAt, List.getD_cons_zero, List.getD_cons_succ] at h0 h1
    obtain ⟨e, he⟩ := Option.isSome_iff_exists.mp h0
    obtain ⟨te, hte⟩ := Option.isSome_iff_exists.mp h1
    by_cases hc : 1 < s.objColors.length
    · obtain ⟨ce, hce⟩ := Option.isSome_iff_exists.mp (by simpa using hcol hc)
      simp [addVertex, addVertexAux, addVertexComp_zero, addVertexComp_one, he, hte, hce,
            modifyCurrent, hg, hc, posEntry, texEntry, normEntry, colEntry]
    · simp [addVertex, addVertexAux, addVertexComp_zero, addVertexComp_one, he, hte,
            modifyCurrent, hg, hc, posEntry, texEntry, normEntry, colEntry]
  · have h0 := hlook 0 (by simp)
    have h1 := hlook 1 (by simp)
    have h2 := hlook 2 (by simp)
    simp only [poolAt, List.getD_cons_zero, List.getD_cons_succ] at h0 h1 h2
    obtain ⟨e, he⟩ := Option.isSome_iff_exists.mp h0
    obtain ⟨te, hte⟩ := Option.isSome_iff_exists.mp h1
    obtain ⟨ne', hne'⟩ := Option.isSome_iff_exists.mp h2
    by_cases hc : 1 < s.objColors.length
    · obtain ⟨ce, hce⟩ := Option.isSome_iff_exists.mp (by simpa using hcol hc)
      simp [addVertex, addVertexAux, addVertexComp_zero, addVertexComp_one, addVertexComp_two,
            he, hte, hne', hce, modifyCurrent, hg, hc, posEntry, texEntry, normEntry, colEntry]
    · simp [addVertex, addVertexAux, addVertexComp_zero, addVertexComp_one, addVertexComp_two,
            he, hte, hne', modifyCurrent, hg, hc, posEntry, texEntry, normEntry, colEntry]
  · simp at hlen

/-- Membership of a successful pool lookup. -/
theorem poolGet_mem {pool : Pool} {idx : Int} {e : List ℚ}
    (h : poolGet pool idx = some e) : e ∈ pool := by
  unfold poolGet at h
  split at h
  · exact absurd h (by simp)
  · exact List.getElem?_mem h

/-- `addVertex_spec` phrased on a geometry-update record, so successive
calls chain syntactically. -/
theorem addVertex_spec' (s : PState) (tok : List Int) (g' : Geometry)
    (hok : TokenOK s tok) :
    addVertex tok { s with geometry := some g' } =
      some { s with geometry := some ({ g' with
                      position := g'.position ++ posEntry s tok,
                      texcoord := g'.texcoord ++ texEntry s tok,
                      normal := g'.normal ++ normEntry s tok,
                      color := g'.color ++ colEntry s tok }) } :=
  addVertex_spec { s with geometry := some g' } tok g' rfl hok

/-- The triangle-fan loop of the `f` case: from a state with a current
geometry, the loop succeeds and appends, per listed triangle `t`, the
expansions of tokens `0`, `t+1`, `t+2` to the four output arrays; nothing
else changes. -/
theorem fanLoop_spec (data : List (List Int)) (ts : List Nat) (s : PState) (g : Geometry)
    (hok : ∀ tok ∈ data, TokenOK s tok)
    (hts : ∀ t ∈ ts, t + 2 < data.length)
    (hd0 : 0 < data.length) :
    ts.foldlM (fanStep data) { s with geometry := some g }
      = some { s with geometry := some ({ g with
          position := g.position ++ ts.flatMap (fun t =>
            posEntry s (data.getD 0 []) ++ posEntry s (data.getD (t + 1) [])
              ++ posEntry s (data.getD (t + 2) [])),
          texcoord := g.texcoord ++ ts.flatMap (fun t =>
            texEntry s (data.getD 0 []) ++ texEntry s (data.getD (t + 1) [])
              ++ texEntry s (data.getD (t + 2) [])),
          normal := g.normal ++ ts.flatMap (fun t =>
            normEntry s (data.getD 0 []) ++ normEntry s (data.getD (t + 1) [])
              ++ normEntry s (data.getD (t + 2) [])),
          color := g.color ++ ts.flatMap (fun t =>
            colEntry s (data.getD 0 []) ++ colEntry s (data.getD (t + 1) [])
              ++ colEntry s (data.getD (t + 2) [])) }) } := by
  have hmem : ∀ t, t < data.length → data.getD t [] ∈ data := by
    intro t ht
    rw [List.getD_eq_getElem data [] ht]
    exact List.getElem_mem ht
  induction ts generalizing g with
  | nil =>
    simp only [List.foldlM_nil, List.flatMap_nil, List.append_nil]
    rfl
  | cons t ts ih =>
    have hlt := hts t (by simp)
    have hA := fun g' => addVertex_spec' s (data.getD 0 []) g' (hok _ (hmem 0 hd0))
    have hB := fun g' => addVertex_spec' s (data.getD (t + 1) []) g' (hok _ (hmem (t + 1) (by omega)))
    have hC := fun g' => addVertex_spec' s (data.getD (t + 2) []) g' (hok _ (hmem (t + 2) (by omega)))
    have hstep : ∀ g', fanStep data { s with geometry := some g' } t
        = some { s with geometry := some ({ g' with
            position := g'.position ++ (posEntry s (data.getD 0 [])
              ++ (posEntry s (data.getD (t + 1) []) ++ posEntry s (data.getD (t + 2) []))),
            texcoord := g'.texcoord ++ (texEntry s (data.getD 0 [])
              ++ (texEntry s (data.getD (t + 1) []) ++ texEntry s (data.getD (t + 2) []))),
            normal := g'.normal ++ (normEntry s (data.getD 0 [])
              ++ (normEntry s (data.getD (t + 1) []) ++ normEntry s (data.getD (t + 2) []))),
            color := g'.color ++ (colEntry s (data.getD 0 [])
              ++ (colEntry s (data.getD (t + 1) []) ++ colEntry s (data.getD (t + 2) []))) }) } := by
      intro g'
      simp only [fanStep, hA, hB, hC, Option.bind_eq_bind, Option.some_bind]
      simp [List.append_assoc]
    rw [List.foldlM_cons, hstep, Option.bind_eq_bind, Option.some_bind,
      ih _ (fun u hu => hts u (by simp [hu]))]
    simp [List.append_assoc]

/-- `setGeometry` always leaves a state that is a geometry-update of the
input state. -/
theorem setGeometry_form (s : PState) :
    ∃ g1, setGeometry s = { s with geometry := some g1 } := by
  cases hg : s.geometry with
  | none => exact ⟨_, by unfold setGeometry; rw [hg]⟩
  | some g =>
    refine ⟨g, ?_⟩
    unfold setGeometry
    simp only [hg]
    conv_rhs => rw [← hg]

/-- Position floats appended by a token are a 3-tuple whenever the
position pool holds only 3-tuples. -/
theorem posEntry_length (s : PState) (tok : List Int)
    (h3 : ∀ e ∈ s.objPositions, e.length = 3) (hok : TokenOK s tok) :
    (posEntry s tok).length = 3 := by
  obtain ⟨hne, hlen, hlook, -⟩ := hok
  rcases tok with _ | ⟨a, rest⟩
  · exact absurd rfl hne
  · have h0 := hlook 0 (by simp)
    simp only [poolAt, List.getD_cons_zero] at h0
    obtain ⟨e, he⟩ := Option.isSome_iff_exists.mp h0
    have := h3 e (poolGet_mem he)
    simp [posEntry, he, this]

/-- Length of a flat-map with constant chunk size. -/
theorem flatMap_length_const {α : Type} (l : List α) (fn : α → List ℚ) (n : Nat)
    (h : ∀ x ∈ l, (fn x).length = n) : (l.flatMap fn).length = n * l.length := by
  induction l with
  | nil => simp
  | cons x xs ih =>
    simp only [List.flatMap_cons, List.length_append, List.length_cons,
      h x (by simp), ih (fun y hy => h y (by simp [hy]))]
    ring

/-- C1.  A face-vertex token with a negative sub-index resolves against
the current pool length (`-1` is the most recently appended entry) and is
interchangeable with the equivalent positive index: `#addVertex` treats
`-k` exactly like `poolLength - k`; concretely, after three `v 0 0 0`
lines the face `f -1 -2 -3` parses to exactly the same expanded geometry
as `f 3 2 1`. -/
theorem claim_C1 :
    (∀ (s : PState) (k : Nat), 1 ≤ k → k ≤ s.objPositions.length →
        addVertex [-(k : Int)] s
          = addVertex [((s.objPositions.length - k : Nat) : Int)] s)
    ∧ parseObj [.v [0, 0, 0], .v [0, 0, 0], .v [0, 0, 0], .f [[-1], [-2], [-3]]]
        = parseObj [.v [0, 0, 0], .v [0, 0, 0], .v [0, 0, 0], .f [[3], [2], [1]]]
    ∧ parseObj [.v [0, 0, 0], .v [0, 0, 0], .v [0, 0, 0], .f [[-1], [-2], [-3]]]
        = some [{ object := "default", material := "default",
                  position := some [0, 0, 0, 0, 0, 0, 0, 0, 0], texcoord := none,
                  normal := none, color := none }] := by
  refine ⟨?_, by decide, by decide⟩
  intro s k hk1 hkn
  have hres : resolveIdx (-(k : Int)) s.objPositions.length
      = resolveIdx ((s.objPositions.length - k : Nat) : Int) s.objPositions.length := by
    unfold resolveIdx
    rw [if_neg (by omega : ¬ (0 : Int) ≤ -(k : Int)),
        if_pos (by omega : (0 : Int) ≤ ((s.objPositions.length - k : Nat) : Int))]
    omega
  simp only [addVertex, addVertexAux, addVertexComp_zero, hres]

/-- Witness for C1 at a concrete state and index. -/
theorem claim_C1_witness :
    addVertex [-(1 : Int)] initState
      = addVertex [((initState.objPositions.length - 1 : Nat) : Int)] initState :=
  claim_C1.1 initState 1 (by decide) (by decide)

/-- C2.  An `f` line with `N` referenced vertices appends to the current
geometry's position array exactly the fan `(v0, v_{t+1}, v_{t+2})` for
`t = 0 .. N-3` (so `9 * (N - 2)` floats, nine per triangle since each
referenced position entry is a 3-tuple), and with `N < 3` it appends
nothing (`9 * (N - 2) = 0` under truncated subtraction); no other
geometry is touched. -/
theorem claim_C2 (s : PState) (data : List (List Int))
    (hok : ∀ tok ∈ data, TokenOK s tok)
    (h3 : ∀ e ∈ s.objPositions, e.length = 3) :
    ∃ g1 s2 g2,
      (setGeometry s).geometry = some g1 ∧
      addObjData s (.f data) = some s2 ∧
      s2.geometry = some g2 ∧
      s2.doneGeometries = s.doneGeometries ∧
      g2.position = g1.position ++ fanData s data ∧
      (∀ tok ∈ data, (posEntry s tok).length = 3) ∧
      (fanData s data).length = 9 * (data.length - 2) := by
  obtain ⟨g1, hform⟩ := setGeometry_form s
  have hpos3 : ∀ tok ∈ data, (posEntry s tok).length = 3 :=
    fun tok htok => posEntry_length s tok h3 (hok tok htok)
  have hmem : ∀ t, t < data.length → data.getD t [] ∈ data := by
    intro t ht
    rw [List.getD_eq_getElem data [] ht]
    exact List.getElem_mem ht
  rcases Nat.lt_or_ge data.length 3 with hsmall | hbig
  · have hz : data.length - 2 = 0 := by omega
    have hfan : fanData s data = [] := by simp [fanData, hz]
    refine ⟨g1, setGeometry s, g1, by rw [hform], ?_, by rw [hform], by rw [hform],
      by simp [hfan], hpos3, by simp [hfan, hz]⟩
    simp only [addObjData, hz, List.range_zero, List.foldlM_nil]
    rfl
  · have hfanlen : (fanData s data).length = 9 * (data.length - 2) := by
      unfold fanData
      rw [flatMap_length_const _ _ 9 ?_, List.length_range]
      intro t ht
      simp only [List.mem_range] at ht
      rw [List.length_append, List.length_append,
        hpos3 _ (hmem 0 (by omega)), hpos3 _ (hmem (t + 1) (by omega)),
        hpos3 _ (hmem (t + 2) (by omega))]
    have hloop := fanLoop_spec data (List.range (data.length - 2)) s g1 hok
      (fun t ht => by simp only [List.mem_range] at ht; omega) (by omega)
    have heq : addObjData s (.f data) = some { s with geometry := some ({ g1 with
        position := g1.position ++ fanData s data,
        texcoord := g1.texcoord ++ (List.range (data.length - 2)).flatMap (fun t =>
          texEntry s (data.getD 0 []) ++ texEntry s (data.getD (t + 1) [])
            ++ texEntry s (data.getD (t + 2) [])),
        normal := g1.normal ++ (List.range (data.length - 2)).flatMap (fun t =>
          normEntry s (data.getD 0 []) ++ normEntry s (data.getD (t + 1) [])
            ++ normEntry s (data.getD (t + 2) [])),
        color := g1.color ++ (List.range (data.length - 2)).flatMap (fun t =>
          colEntry s (data.getD 0 []) ++ colEntry s (data.getD (t + 1) [])
            ++ colEntry s (data.getD (t + 2) [])) }) } := by
      show (List.range (data.length - 2)).foldlM (fanStep data) (setGeometry s) = _
      rw [hform, hloop]
      rfl
    exact ⟨g1, _, _, by rw [hform], heq, rfl, rfl, rfl, hpos3, hfanlen⟩

/-- Witness for C2 at a concrete state and face line. -/
theorem claim_C2_witness :
    ∃ g1 s2 g2,
      (setGeometry initState).geometry = some g1 ∧
      addObjData initState (.f [[0], [0], [0], [0]]) = some s2 ∧
      s2.geometry = some g2 ∧
      s2.doneGeometries = initState.doneGeometries ∧
      g2.position = g1.position ++ fanData initState [[0], [0], [0], [0]] ∧
      (∀ tok ∈ [[0], [0], [0], [0]], (posEntry initState tok).length = 3) ∧
      (fanData initState [[0], [0], [0], [0]]).length = 9 * ([[0], [0], [0], [0]].length - 2) :=
  claim_C2 initState [[(0 : Int)], [0], [0], [0]] (by decide) (by decide)

/-- C3.  A `v` line with exactly 3 numeric fields grows the position pool
by one 3-tuple and leaves the color pool untouched; with more than 3
fields the first 3 go to the position pool and the rest form one new
color-pool tuple. -/
theorem claim_C3 :
    (∀ (s : PState) (data : List ℚ), data.length = 3 →
      ∃ s', addObjData s (.v data) = some s' ∧
        s'.objPositions = s.objPositions ++ [data] ∧
        s'.objPositions.length = s.objPositions.length + 1 ∧
        s'.objColors = s.objColors)
    ∧ (∀ (s : PState) (data : List ℚ), 3 < data.length →
      ∃ s', addObjData s (.v data) = some s' ∧
        s'.objPositions = s.objPositions ++ [data.take 3] ∧
        (data.take 3).length = 3 ∧
        s'.objColors = s.objColors ++ [data.drop 3] ∧
        data.take 3 ++ data.drop 3 = data) := by
  constructor
  · intro s data hlen
    have h : addObjData s (.v data)
        = some { s with objPositions := s.objPositions ++ [data] } := by
      have h3 : ¬ 3 < data.length := by omega
      simp [addObjData, h3]
    exact ⟨_, h, rfl, by simp, rfl⟩
  · intro s data hlen
    have h : addObjData s (.v data)
        = some { s with objPositions := s.objPositions ++ [data.take 3],
                        objColors := s.objColors ++ [data.drop 3] } := by
      simp [addObjData, hlen]
    refine ⟨_, h, rfl, ?_, rfl, by simp⟩
    rw [List.length_take]
    omega

/-- Success of a pool lookup is exactly in-bounds access. -/
theorem poolGet_isSome {pool : Pool} {idx : Int} :
    (poolGet pool idx).isSome = true ↔ 0 ≤ idx ∧ idx.toNat < pool.length := by
  unfold poolGet
  split
  · rename_i hlt
    exact iff_of_false (by simp) (by rintro ⟨h1, -⟩; omega)
  · rename_i hge
    rw [Option.isSome_iff_exists]
    constructor
    · rintro ⟨a, ha⟩
      exact ⟨by omega, (List.getElem?_eq_some.mp ha).1⟩
    · rintro ⟨-, h2⟩
      exact ⟨_, List.getElem?_eq_some.mpr ⟨h2, rfl⟩⟩

/-- Texcoord floats appended by a token: a 2-tuple exactly when the token
has a second sub-index (given the texcoord pool holds only 2-tuples). -/
theorem texEntry_length (s : PState) (tok : List Int)
    (h2 : ∀ e ∈ s.objTexcoords, e.length = 2) (hok : TokenOK s tok) :
    (texEntry s tok).length = if 2 ≤ tok.length then 2 else 0 := by
  by_cases h : 2 ≤ tok.length
  · obtain ⟨-, -, hlook, -⟩ := hok
    have h1 := hlook 1 (by omega)
    simp only [poolAt] at h1
    obtain ⟨e, he⟩ := Option.isSome_iff_exists.mp h1
    unfold texEntry
    rw [if_pos h, if_pos h, he]
    exact h2 e (poolGet_mem he)
  · simp [texEntry, h]

/-- Normal floats appended by a token: a 3-tuple exactly when the token
has a third sub-index (given the normal pool holds only 3-tuples). -/
theorem normEntry_length (s : PState) (tok : List Int)
    (h3 : ∀ e ∈ s.objNormals, e.length = 3) (hok : TokenOK s tok) :
    (normEntry s tok).length = if 3 ≤ tok.length then 3 else 0 := by
  by_cases h : 3 ≤ tok.length
  · obtain ⟨-, -, hlook, -⟩ := hok
    have h1 := hlook 2 (by omega)
    simp only [poolAt] at h1
    obtain ⟨e, he⟩ := Option.isSome_iff_exists.mp h1
    unfold normEntry
    rw [if_pos h, if_pos h, he]
    exact h3 e (poolGet_mem he)
  · simp [normEntry, h]

/-- Color floats appended by a token: a 3-tuple exactly when the color
pool holds more than the sentinel (given it holds only 3-tuples). -/
theorem colEntry_length (s : PState) (tok : List Int)
    (h3 : ∀ e ∈ s.objColors, e.length = 3) (hok : TokenOK s tok) :
    (colEntry s tok).length = if 1 < s.objColors.length then 3 else 0 := by
  by_cases hc : 1 < s.objColors.length
  · obtain ⟨-, -, -, hcol⟩ := hok
    obtain ⟨e, he⟩ := Option.isSome_iff_exists.mp (hcol hc)
    unfold colEntry
    rw [if_pos hc, if_pos hc, he]
    exact h3 e (poolGet_mem he)
  · simp [colEntry, hc]

/-- A well-formed token is a token whose processing succeeds. -/
theorem tokenOK_of_wf {colorful : Bool} {L : Nat} {c : Counts} {s : PState}
    (inv : StateInv colorful L c s) (hL1 : 1 ≤ L) (hL3 : L ≤ 3)
    (hcp : colorful = true → 1 < c.nPos)
    {tok : List Int} (hwf : tokenWF L c tok) : TokenOK s tok := by
  obtain ⟨hlen, hidx⟩ := hwf
  have hne : tok ≠ [] := by
    intro hnil
    rw [hnil] at hlen
    simp at hlen
    omega
  refine ⟨hne, by omega, ?_, ?_⟩
  · intro i hi
    have hiwf := hidx i hi
    have hdim : (poolAt s i).length = dimAt c i := by
      have hi3 : i < 3 := by omega
      interval_cases i
      · exact inv.posLen
      · exact inv.texLen
      · exact inv.normLen
    rw [poolGet_isSome, hdim]
    exact ⟨hiwf.1, hiwf.2⟩
  · intro hc
    have hcf : colorful = true := by
      cases colorful
      · exfalso
        rw [inv.colLen, inv.plainCol rfl] at hc
        omega
      · rfl
    have h0 := hidx 0 (by omega)
    have hhead : tok.headD 0 = tok.getD 0 0 := by
      rcases tok with _ | ⟨a, r⟩
      · exact absurd rfl hne
      · rfl
    rw [poolGet_isSome, hhead, inv.colLen, inv.colorfulEq hcf, ← inv.posLen, inv.posLen]
    exact ⟨h0.1, h0.2⟩

/-- Refinement of `setGeometry_form`: the current geometry after
`setGeometry` is either the pre-existing one or a fresh empty one. -/
theorem setGeometry_form' (s : PState) :
    ∃ g1, setGeometry s = { s with geometry := some g1 } ∧
      (s.geometry = some g1 ∨
        (s.geometry = none ∧
          g1 = { object := s.object, material := s.material,
                 position := [], texcoord := [], normal := [], color := [] })) := by
  cases hg : s.geometry with
  | none => exact ⟨_, by unfold setGeometry; rw [hg], Or.inr ⟨rfl, rfl⟩⟩
  | some g =>
    refine ⟨g, ?_, Or.inl rfl⟩
    unfold setGeometry
    simp only [hg]
    conv_rhs => rw [← hg]

/-- `newGeometry` preserves the invariant: it only relocates (or keeps)
the current geometry. -/
theorem newGeometry_inv {colorful : Bool} {L : Nat} {c : Counts} {s : PState}
    (inv : StateInv colorful L c s) : StateInv colorful L c (newGeometry s) := by
  unfold newGeometry
  split
  · exact inv
  · rename_i g hg
    split_ifs with hp
    · refine ⟨inv.posLen, inv.texLen, inv.normLen, inv.colLen, inv.posArity, inv.texArity,
        inv.normArity, inv.colArity, inv.colorfulEq, inv.plainCol, ?_, ?_⟩
      · intro g' hg'
        rcases List.mem_append.mp hg' with h | h
        · exact inv.doneInv g' h
        · simp at h
          subst h
          exact inv.curInv g' (by simp [hg])
      · intro g' hg'
        simp at hg'
    · exact inv

/-- One well-formed line preserves the state invariant. -/
theorem addObjData_preserves (colorful : Bool) (L : Nat) (hL1 : 1 ≤ L) (hL3 : L ≤ 3)
    (c : Counts) (s : PState) (line : ObjLine)
    (inv : StateInv colorful L c s) (hwf : lineWF colorful L c line)
    (s' : PState) (h : addObjData s line = some s') :
    StateInv colorful L (countsStep colorful c line) s' := by
  cases line with
  | v d =>
    have hd : d.length = if colorful then 6 else 3 := hwf
    cases colorful with
    | true =>
      rw [if_pos rfl] at hd
      simp only [addObjData] at h
      rw [if_pos (by omega)] at h
      cases h
      refine ⟨?_, inv.texLen, inv.normLen, ?_, ?_, inv.texArity, inv.normArity, ?_, ?_, ?_,
        inv.doneInv, inv.curInv⟩
      · simp [countsStep, inv.posLen]
      · simp [countsStep, inv.colLen]
      · intro e he
        rcases List.mem_append.mp he with he | he
        · exact inv.posArity e he
        · simp at he
          subst he
          rw [List.length_take]
          omega
      · intro e he
        rcases List.mem_append.mp he with he | he
        · exact inv.colArity e he
        · simp at he
          subst he
          rw [List.length_drop]
          omega
      · intro hcf
        simp [countsStep, inv.colorfulEq rfl]
      · intro hcf
        simp at hcf
    | false =>
      rw [if_neg (by simp)] at hd
      simp only [addObjData] at h
      rw [if_neg (by omega)] at h
      cases h
      refine ⟨?_, inv.texLen, inv.normLen, ?_, ?_, inv.texArity, inv.normArity, inv.colArity,
        ?_, ?_, inv.doneInv, inv.curInv⟩
      · simp [countsStep, inv.posLen]
      · simp [countsStep, inv.colLen]
      · intro e he
        rcases List.mem_append.mp he with he | he
        · exact inv.posArity e he
        · simp at he
          subst he
          exact hd
      · intro hcf
        simp at hcf
      · intro hcf
        simp [countsStep, inv.plainCol rfl]
  | vn d =>
    have hd : d.length = 3 := hwf
    simp only [addObjData] at h
    cases h
    refine ⟨inv.posLen, inv.texLen, ?_, inv.colLen, inv.posArity, inv.texArity, ?_,
      inv.colArity, ?_, ?_, inv.doneInv, inv.curInv⟩
    · simp [countsStep, inv.normLen]
    · intro e he
      rcases List.mem_append.mp he with he | he
      · exact inv.normArity e he
      · simp at he
        subst he
        exact hd
    · intro hcf
      simp [countsStep, inv.colorfulEq hcf]
    · intro hcf
      simp [countsStep, inv.plainCol hcf]
  | vt d =>
    by_cases h2 : d.length = 2
    · rw [show countsStep colorful c (.vt d) = { c with nTex := c.nTex + 1 } from by
        simp [countsStep, h2]]
      simp only [addObjData] at h
      rw [if_pos h2] at h
      cases h
      refine ⟨inv.posLen, ?_, inv.normLen, inv.colLen, inv.posArity, ?_, inv.normArity,
        inv.colArity, inv.colorfulEq, inv.plainCol, inv.doneInv, inv.curInv⟩
      · simp [inv.texLen]
      · intro e he
        rcases List.mem_append.mp he with he | he
        · exact inv.texArity e he
        · simp at he
          subst he
          exact h2
    · rw [show countsStep colorful c (.vt d) = c from by simp [countsStep, h2]]
      simp only [addObjData] at h
      rw [if_neg h2] at h
      cases h
      exact inv
  | usemtl name =>
    simp only [addObjData] at h
    cases h
    exact newGeometry_inv ⟨inv.posLen, inv.texLen, inv.normLen, inv.colLen, inv.posArity,
      inv.texArity, inv.normArity, inv.colArity, inv.colorfulEq, inv.plainCol,
      inv.doneInv, inv.curInv⟩
  | mtllib name =>
    simp only [addObjData] at h
    cases h
    exact newGeometry_inv ⟨inv.posLen, inv.texLen, inv.normLen, inv.colLen, inv.posArity,
      inv.texArity, inv.normArity, inv.colArity, inv.colorfulEq, inv.plainCol,
      inv.doneInv, inv.curInv⟩
  | o name =>
    simp only [addObjData] at h
    cases h
    exact newGeometry_inv ⟨inv.posLen, inv.texLen, inv.normLen, inv.colLen, inv.posArity,
      inv.texArity, inv.normArity, inv.colArity, inv.colorfulEq, inv.plainCol,
      inv.doneInv, inv.curInv⟩
  | other =>
    simp only [addObjData] at h
    cases h
    exact inv
  | f data =>
    obtain ⟨hcp, htok⟩ := hwf
    have hok : ∀ tok ∈ data, TokenOK s tok :=
      fun tok ht => tokenOK_of_wf inv hL1 hL3 hcp (htok tok ht)
    obtain ⟨g1, hform, hg1⟩ := setGeometry_form' s
    have hg1inv : GeomInv colorful L g1 := by
      rcases hg1 with hcur | ⟨-, rfl⟩
      · exact inv.curInv g1 (by simp [hcur])
      · exact ⟨0, by simp⟩
    have hmem : ∀ t, t < data.length → data.getD t [] ∈ data := by
      intro t ht
      rw [List.getD_eq_getElem data [] ht]
      exact List.getElem_mem ht
    show StateInv colorful L c s'
    rcases Nat.lt_or_ge data.length 3 with hsmall | hbig
    · have hz : data.length - 2 = 0 := by omega
      have h' : some (setGeometry s) = some s' := by
        rw [← h]
        simp only [addObjData, hz, List.range_zero, List.foldlM_nil]
        rfl
      cases h'
      rw [hform]
      refine ⟨inv.posLen, inv.texLen, inv.normLen, inv.colLen, inv.posArity, inv.texArity,
        inv.normArity, inv.colArity, inv.colorfulEq, inv.plainCol, inv.doneInv, ?_⟩
      intro g hgmem
      simp at hgmem
      subst hgmem
      exact hg1inv
    · have hpos3 : ∀ tok ∈ data, (posEntry s tok).length = 3 :=
        fun tok ht => posEntry_length s tok inv.posArity (hok tok ht)
      have htexE : ∀ tok ∈ data, (texEntry s tok).length = (if 2 ≤ L then 2 else 0) := by
        intro tok ht
        rw [texEntry_length s tok inv.texArity (hok tok ht), (htok tok ht).1]
      have hnormE : ∀ tok ∈ data, (normEntry s tok).length = (if 3 ≤ L then 3 else 0) := by
        intro tok ht
        rw [normEntry_length s tok inv.normArity (hok tok ht), (htok tok ht).1]
      have hcolE : ∀ tok ∈ data, (colEntry s tok).length = (if colorful then 3 else 0) := by
        intro tok ht
        rw [colEntry_length s tok inv.colArity (hok tok ht)]
        cases colorful with
        | true =>
          rw [if_pos (by rw [inv.colLen, inv.colorfulEq rfl]; exact hcp rfl)]
          simp
        | false =>
          rw [if_neg (by rw [inv.colLen, inv.plainCol rfl]; omega)]
          simp
      have hloop := fanLoop_spec data (List.range (data.length - 2)) s g1 hok
        (fun t ht => by simp only [List.mem_range] at ht; omega) (by omega)
      have heq : addObjData s (.f data) = some { s with geometry := some ({ g1 with
          position := g1.position ++ (List.range (data.length - 2)).flatMap (fun t =>
            posEntry s (data.getD 0 []) ++ posEntry s (data.getD (t + 1) [])
              ++ posEntry s (data.getD (t + 2) [])),
          texcoord := g1.texcoord ++ (List.range (data.length - 2)).flatMap (fun t =>
            texEntry s (data.getD 0 []) ++ texEntry s (data.getD (t + 1) [])
              ++ texEntry s (data.getD (t + 2) [])),
          normal := g1.normal ++ (List.range (data.length - 2)).flatMap (fun t =>
            normEntry s (data.getD 0 []) ++ normEntry s (data.getD (t + 1) [])
              ++ normEntry s (data.getD (t + 2) [])),
          color := g1.color ++ (List.range (data.length - 2)).flatMap (fun t =>
            colEntry s (data.getD 0 []) ++ colEntry s (data.getD (t + 1) [])
              ++ colEntry s (data.getD (t + 2) [])) }) } := by
        show (List.range (data.length - 2)).foldlM (fanStep data) (setGeometry s) = _
        rw [hform, hloop]
      rw [heq] at h
      cases h
      refine ⟨inv.posLen, inv.texLen, inv.normLen, inv.colLen, inv.posArity, inv.texArity,
        inv.normArity, inv.colArity, inv.colorfulEq, inv.plainCol, inv.doneInv, ?_⟩
      intro g hgmem
      have hgeq := List.eq_of_mem_singleton hgmem
      subst hgeq
      obtain ⟨m, hm1, hm2, hm3, hm4⟩ := hg1inv
      have hchunkPos : ∀ u ∈ List.range (data.length - 2),
          (posEntry s (data.getD 0 []) ++ posEntry s (data.getD (u + 1) [])
            ++ posEntry s (data.getD (u + 2) [])).length = 9 := by
        intro u hu
        simp only [List.mem_range] at hu
        simp only [List.length_append]
        rw [hpos3 _ (hmem 0 (by omega)), hpos3 _ (hmem (u + 1) (by omega)),
          hpos3 _ (hmem (u + 2) (by omega))]
      have hchunkTex : ∀ u ∈ List.range (data.length - 2),
          (texEntry s (data.getD 0 []) ++ texEntry s (data.getD (u + 1) [])
            ++ texEntry s (data.getD (u + 2) [])).length = 3 * (if 2 ≤ L then 2 else 0) := by
        intro u hu
        simp only [List.mem_range] at hu
        simp only [List.length_append]
        rw [htexE _ (hmem 0 (by omega)), htexE _ (hmem (u + 1) (by omega)),
          htexE _ (hmem (u + 2) (by omega))]
        ring
      have hchunkNorm : ∀ u ∈ List.range (data.length - 2),
          (normEntry s (data.getD 0 []) ++ normEntry s (data.getD (u + 1) [])
            ++ normEntry s (data.getD (u + 2) [])).length = 3 * (if 3 ≤ L then 3 else 0) := by
        intro u hu
        simp only [List.mem_range] at hu
        simp only [List.length_append]
        rw [hnormE _ (hmem 0 (by omega)), hnormE _ (hmem (u + 1) (by omega)),
          hnormE _ (hmem (u + 2) (by omega))]
        ring
      have hchunkCol : ∀ u ∈ List.range (data.length - 2),
          (colEntry s (data.getD 0 []) ++ colEntry s (data.getD (u + 1) [])
            ++ colEntry s (data.getD (u + 2) [])).length = 3 * (if colorful then 3 else 0) := by
        intro u hu
        simp only [List.mem_range] at hu
        simp only [List.length_append]
        rw [hcolE _ (hmem 0 (by omega)), hcolE _ (hmem (u + 1) (by omega)),
          hcolE _ (hmem (u + 2) (by omega))]
        ring
      refine ⟨m + 3 * (data.length - 2), ?_, ?_, ?_, ?_⟩
      · rw [List.length_append, hm1, flatMap_length_const _ _ 9 hchunkPos, List.length_range]
        ring
      · rw [List.length_append, hm2,
          flatMap_length_const _ _ (3 * (if 2 ≤ L then 2 else 0)) hchunkTex, List.length_range]
        by_cases hL2 : 2 ≤ L
        · simp only [if_pos hL2]
          ring
        · simp only [if_neg hL2]
          omega
      · rw [List.length_append, hm3,
          flatMap_length_const _ _ (3 * (if 3 ≤ L then 3 else 0)) hchunkNorm, List.length_range]
        by_cases hL2 : 3 ≤ L
        · simp only [if_pos hL2]
          ring
        · simp only [if_neg hL2]
          omega
      · rw [List.length_append, hm4,
          flatMap_length_const _ _ (3 * (if colorful then 3 else 0)) hchunkCol, List.length_range]
        cases colorful with
        | true =>
          simp only [eq_self_iff_true, if_true]
          ring
        | false =>
          simp only [Bool.false_eq_true, if_false]
          omega

/-- Folding well-formed lines preserves the state invariant. -/
theorem foldWF (colorful : Bool) (L : Nat) (hL1 : 1 ≤ L) (hL3 : L ≤ 3)
    (lines : List ObjLine) :
    ∀ (c : Counts) (s : PState), StateInv colorful L c s → inputWF colorful L c lines →
      ∀ s', lines.foldlM addObjData s = some s' →
        StateInv colorful L (lines.foldl (countsStep colorful) c) s' := by
  induction lines with
  | nil =>
    intro c s inv _ s' h
    rw [List.foldlM_nil] at h
    obtain rfl : s = s' := Option.some.inj h
    simpa using inv
  | cons line rest ih =>
    intro c s inv hwf s' h
    rw [List.foldlM_cons] at h
    obtain ⟨hline, hrest⟩ := hwf
    cases hstep : addObjData s line with
    | none =>
      rw [hstep] at h
      simp at h
    | some s1 =>
      rw [hstep, Option.bind_eq_bind, Option.some_bind] at h
      have inv1 := addObjData_preserves colorful L hL1 hL3 c s line inv hline s1 hstep
      have := ih (countsStep colorful c line) s1 inv1 hrest s' h
      simpa using this

/-- C8 (amended).  On a well-formed input — every `v` line has 3 fields
(or uniformly 6 in a colorful file), every `vn` line 3 fields, all face
tokens share one sub-index arity `L` and resolve in bounds, and colorful
files place faces after a `v` line — every geometry of a completed parse
has one vertex count `m` explaining all four output arrays: each kept
array is non-empty with length `component * m` (components 3, 2, 3, 3),
and empty arrays were dropped by the post-pass. -/
theorem claim_C8 (colorful : Bool) (L : Nat) (lines : List ObjLine) (gs : List FinalGeometry)
    (hL1 : 1 ≤ L) (hL3 : L ≤ 3)
    (hwf : inputWF colorful L initCounts lines)
    (hparse : parseObj lines = some gs) :
    ∀ fg ∈ gs, ∃ m, OptArr fg.position 3 m ∧ OptArr fg.texcoord 2 m ∧
      OptArr fg.normal 3 m ∧ OptArr fg.color 3 m := by
  have hinit : StateInv colorful L initCounts initState := by
    refine ⟨rfl, rfl, rfl, rfl, ?_, ?_, ?_, ?_, fun _ => rfl, fun _ => rfl, ?_, ?_⟩
    · intro e he
      simp only [initState, List.mem_singleton] at he
      subst he
      rfl
    · intro e he
      simp only [initState, List.mem_singleton] at he
      subst he
      rfl
    · intro e he
      simp only [initState, List.mem_singleton] at he
      subst he
      rfl
    · intro e he
      simp only [initState, List.mem_singleton] at he
      subst he
      rfl
    · intro g hg
      simp [initState] at hg
    · intro g hg
      simp [initState] at hg
  unfold parseObj at hparse
  cases hfold : lines.foldlM addObjData initState with
  | none =>
    rw [hfold] at hparse
    simp at hparse
  | some sFin =>
    rw [hfold, Option.bind_eq_bind, Option.some_bind] at hparse
    obtain rfl : ((sFin.doneGeometries ++ sFin.geometry.toList).map finalizeGeometry) = gs :=
      Option.some.inj hparse
    have hfin := foldWF colorful L hL1 hL3 lines initCounts initState hinit hwf sFin hfold
    intro fg hfg
    rw [List.mem_map] at hfg
    obtain ⟨g, hgmem, rfl⟩ := hfg
    have hginv : GeomInv colorful L g := by
      rcases List.mem_append.mp hgmem with h | h
      · exact hfin.doneInv g h
      · exact hfin.curInv g h
    obtain ⟨m, hm1, hm2, hm3, hm4⟩ := hginv
    refine ⟨m, ?_, ?_, ?_, ?_⟩
    · show OptArr (keepNonEmpty g.position) 3 m
      unfold keepNonEmpty
      split_ifs with hp
      · exact ⟨by intro hx; rw [hx] at hp; simp at hp, hm1⟩
      · trivial
    · show OptArr (keepNonEmpty g.texcoord) 2 m
      unfold keepNonEmpty
      split_ifs with hp
      · refine ⟨by intro hx; rw [hx] at hp; simp at hp, ?_⟩
        by_cases hL2 : 2 ≤ L
        · rw [hm2, if_pos hL2]
        · rw [hm2, if_neg hL2] at hp
          omega
      · trivial
    · show OptArr (keepNonEmpty g.normal) 3 m
      unfold keepNonEmpty
      split_ifs with hp
      · refine ⟨by intro hx; rw [hx] at hp; simp at hp, ?_⟩
        by_cases hL2 : 3 ≤ L
        · rw [hm3, if_pos hL2]
        · rw [hm3, if_neg hL2] at hp
          omega
      · trivial
    · show OptArr (keepNonEmpty g.color) 3 m
      unfold keepNonEmpty
      split_ifs with hp
      · refine ⟨by intro hx; rw [hx] at hp; simp at hp, ?_⟩
        cases colorful with
        | true => rw [hm4, if_pos rfl]
        | false =>
          rw [hm4, if_neg (by simp)] at hp
          omega
      · trivial

/-- Witness for C8 at a concrete well-formed input. -/
theorem claim_C8_witness :
    ∃ m, OptArr (⟨"default", "default",
        some [0, 0, 0, 0, 0, 0, 0, 0, 0], none, none, none⟩ : FinalGeometry).position 3 m ∧
      OptArr (⟨"default", "default",
        some [0, 0, 0, 0, 0, 0, 0, 0, 0], none, none, none⟩ : FinalGeometry).texcoord 2 m ∧
      OptArr (⟨"default", "default",
        some [0, 0, 0, 0, 0, 0, 0, 0, 0], none, none, none⟩ : FinalGeometry).normal 3 m ∧
      OptArr (⟨"default", "default",
        some [0, 0, 0, 0, 0, 0, 0, 0, 0], none, none, none⟩ : FinalGeometry).color 3 m :=
  claim_C8 false 1 [ObjLine.v [0, 0, 0], ObjLine.f [[1], [1], [1]]]
    [(⟨"default", "default", some [0, 0, 0, 0, 0, 0, 0, 0, 0], none, none,
      none⟩ : FinalGeometry)]
    (by decide) (by decide) (by decide) (by decide)
    (⟨"default", "default", some [0, 0, 0, 0, 0, 0, 0, 0, 0], none, none,
      none⟩ : FinalGeometry)
    (by decide)

/-- Counterexample to C8 as stated: a face mixing token shapes
(`f 1/1 1 1`) yields one geometry whose non-empty position and texcoord
arrays describe different vertex counts (3 versus 1), so no common vertex
count exists. -/
theorem claim_C8_counterexample :
    parseObj [.v [0, 0, 0], .vt [0, 0], .f [[1, 1], [1], [1]]]
      = some [{ object := "default", material := "default",
                position := some [0, 0, 0, 0, 0, 0, 0, 0, 0], texcoord := some [0, 0],
                normal := none, color := none }] ∧
    ¬ ∃ m, OptArr (some [0, 0, 0, 0, 0, 0, 0, 0, 0]) 3 m
        ∧ OptArr (some [(0 : ℚ), 0]) 2 m := by
  constructor
  · decide
  · rintro ⟨m, ⟨-, h9⟩, ⟨-, h2⟩⟩
    simp at h9 h2
    omega

theorem listModify_length {α : Type} (fn : α → α) (n : Nat) (l : List α) :
    (listModify fn n l).length = l.length := by
  induction l generalizing n with
  | nil => cases n <;> rfl
  | cons x rest ih =>
    cases n with
    | zero => rfl
    | succ n => simp only [listModify, List.length_cons, ih]

theorem listModify_getElem? {α : Type} (fn : α → α) (n : Nat) (l : List α) (i : Nat) :
    (listModify fn n l)[i]? = if i = n then (l[i]?).map fn else l[i]? := by
  induction l generalizing n i with
  | nil => simp [listModify]
  | cons x rest ih =>
    cases n with
    | zero =>
      cases i with
      | zero => simp [listModify]
      | succ i => simp [listModify]
    | succ n =>
      cases i with
      | zero => simp [listModify]
      | succ i =>
        simp only [listModify, List.getElem?_cons_succ, ih]
        by_cases hin : i = n
        · simp [hin]
        · simp [hin]

theorem map_listModify {α β : Type} (f : α → β) (fn : α → α) (gn : β → β) (n : Nat)
    (l : List α) (h : ∀ x, f (fn x) = gn (f x)) :
    (listModify fn n l).map f = listModify gn n (l.map f) := by
  induction l generalizing n with
  | nil => cases n <;> rfl
  | cons x rest ih =>
    cases n with
    | zero => simp [listModify, h]
    | succ n => simp [listModify, ih]

/-- The flags of a flag write. -/
theorem boolGrid_setFlag (grid : List (List LFCam)) (r c : Nat) (b : Bool) :
    boolGrid (setFlag grid r c b) =
      listModify (fun row => listModify (fun _ => b) c row) r (boolGrid grid) := by
  unfold boolGrid setFlag
  rw [map_listModify]
  intro row
  rw [map_listModify]
  intro cam
  rfl

theorem selCols_eq_nil_iff (row : List Bool) :
    selCols row = [] ↔ ∀ x ∈ row, x = false := by
  induction row with
  | nil => simp [selCols]
  | cons b rest ih =>
    cases b
    · simp [selCols, ih]
    · simp [selCols]

theorem selPairsB_eq_nil_iff (bg : List (List Bool)) :
    selPairsB bg = [] ↔ allFalseB bg := by
  induction bg with
  | nil => simp [selPairsB, allFalseB]
  | cons row rest ih =>
    unfold allFalseB at ih ⊢
    simp [selPairsB, selCols_eq_nil_iff, ih]

theorem selCols_setTrue (row : List Bool) (c : Nat)
    (hall : ∀ x ∈ row, x = false) (hc : c < row.length) :
    selCols (listModify (fun _ => true) c row) = [c] := by
  induction row generalizing c with
  | nil => simp at hc
  | cons b rest ih =>
    cases c with
    | zero =>
      have hrest : selCols rest = [] :=
        (selCols_eq_nil_iff rest).mpr (fun x hx => hall x (by simp [hx]))
      simp [listModify, selCols, hrest]
    | succ c =>
      have hb : b = false := hall b (by simp)
      subst hb
      have := ih c (fun x hx => hall x (by simp [hx])) (by simpa using hc)
      simp [listModify, selCols, this]

theorem selPairsB_setTrue (bg : List (List Bool)) (r c : Nat)
    (hall : allFalseB bg) (hr : r < bg.length) (hc : c < ((bg[r]?).getD []).length) :
    selPairsB (listModify (listModify (fun _ => true) c) r bg) = [(r, c)] := by
  induction bg generalizing r with
  | nil => simp at hr
  | cons row rest ih =>
    cases r with
    | zero =>
      have h1 : selCols (listModify (fun _ => true) c row) = [c] :=
        selCols_setTrue row c (hall row (by simp)) (by simpa using hc)
      have h2 : selPairsB rest = [] :=
        (selPairsB_eq_nil_iff rest).mpr (fun rw hrw x hx => hall rw (by simp [hrw]) x hx)
      simp [listModify, selPairsB, h1, h2]
    | succ r =>
      have h1 : selCols row = [] := (selCols_eq_nil_iff row).mpr (hall row (by simp))
      have := ih r (fun rw hrw => hall rw (by simp [hrw])) (by simpa using hr)
        (by simpa using hc)
      simp [listModify, selPairsB, h1, this]

theorem selCols_clear (row : List Bool) (c : Nat) (h : selCols row = [c]) :
    selCols (listModify (fun _ => false) c row) = [] := by
  induction row generalizing c with
  | nil => simp [selCols] at h
  | cons b rest ih =>
    cases b
    · rcases hrest : selCols rest with _ | ⟨c', tail⟩
      · rw [selCols, hrest] at h
        simp at h
      · rw [selCols, hrest] at h
        simp at h
        obtain ⟨hc, htail⟩ := h
        subst htail
        subst hc
        have := ih c' hrest
        simp [listModify, selCols, this]
    · rw [selCols] at h
      simp at h
      obtain ⟨hc, htail⟩ := h
      subst hc
      simp [listModify, selCols, htail]

theorem selPairsB_clear (bg : List (List Bool)) (r c : Nat)
    (h : selPairsB bg = [(r, c)]) :
    selPairsB (listModify (listModify (fun _ => false) c) r bg) = [] := by
  induction bg generalizing r with
  | nil => simp [selPairsB] at h
  | cons row rest ih =>
    rcases hA : selCols row with _ | ⟨c0, tailA⟩
    · rw [selPairsB, hA] at h
      simp at h
      rcases hB : selPairsB rest with _ | ⟨p, tailB⟩
      · rw [hB] at h
        simp at h
      · rw [hB] at h
        simp at h
        obtain ⟨⟨hp1, hp2⟩, htail⟩ := h
        subst htail
        cases hp1
        have hp : selPairsB rest = [(p.1, c)] := by
          rw [hB, show p = (p.1, c) from Prod.ext rfl hp2]
        have := ih p.1 hp
        simp [listModify, selPairsB, hA, this]
    · rw [selPairsB, hA] at h
      simp at h
      obtain ⟨⟨hr0, hc0⟩, htail, hrest⟩ := h
      subst htail
      cases hr0
      cases hc0
      have hclear := selCols_clear row _ hA
      simp [listModify, selPairsB, hclear, hrest]

/-- Clearing with no selected camera leaves the grid unchanged. -/
theorem clearSelected_of_none (grid : List (List LFCam)) (h : selPairs grid = []) :
    clearSelected grid = grid := by
  unfold clearSelected
  simp only [h, List.getLast?_nil]

/-- Clearing a grid with at most one selected camera leaves none selected. -/
theorem clearSelected_spec (grid : List (List LFCam)) (h : countSelected grid ≤ 1) :
    selPairs (clearSelected grid) = [] := by
  rcases hsp : selPairs grid with _ | ⟨p, rest⟩
  · rw [clearSelected_of_none grid hsp, hsp]
  · have hrest : rest = [] := by
      unfold countSelected at h
      rw [hsp] at h
      simp at h
      exact h
    subst hrest
    unfold clearSelected
    rw [hsp]
    show selPairs (setFlag grid p.1 p.2 false) = []
    unfold selPairs
    rw [boolGrid_setFlag]
    refine selPairsB_clear _ p.1 p.2 ?_
    rw [← hsp]
    rfl

/-- Color reassignment never touches a selection flag (row level). -/
theorem updateCamsList_selected (cams : List LFCam) : ∀ (it : Nat) (c : RGBA),
    (updateCamsList it c cams).1.map (fun cam => cam.selected)
      = cams.map (fun cam => cam.selected) := by
  induction cams with
  | nil => intro it c; rfl
  | cons cam rest ih =>
    intro it c
    unfold updateCamsList
    split_ifs with hsel <;> simp [ih]

/-- Color reassignment never touches a selection flag (grid level). -/
theorem updateCamsRows_boolGrid (rows : List (List LFCam)) : ∀ (it : Nat) (c : RGBA),
    boolGrid (updateCamsRows it c rows).1 = boolGrid rows := by
  induction rows with
  | nil => intro it c; rfl
  | cons row rest ih =>
    intro it c
    unfold updateCamsRows boolGrid
    simp only [List.map_cons]
    rw [show (updateCamsList it c row).1.map (fun cam => cam.selected)
        = row.map (fun cam => cam.selected) from updateCamsList_selected row it c]
    have := ih (updateCamsList it c row).2.1 (updateCamsList it c row).2.2
    unfold boolGrid at this
    rw [this]

/-- Color reassignment preserves the selection pairs. -/
theorem selPairs_updateColors (grid : List (List LFCam)) :
    selPairs (updateCameraColors grid) = selPairs grid := by
  unfold selPairs updateCameraColors
  rw [updateCamsRows_boolGrid]

theorem getCamera_row_oob (g : List (List LFCam)) (r c : Nat) (h : g.length ≤ r) :
    getCamera g r c = .error .typeError := by
  unfold getCamera
  simp only [List.getElem?_eq_none h]

theorem getCamera_col_oob (g : List (List LFCam)) (r c : Nat) (row : List LFCam)
    (hr : g[r]? = some row) (h : row.length ≤ c) :
    getCamera g r c = .error .invalidCameraIndex := by
  unfold getCamera
  simp only [hr, List.getElem?_eq_none h]

theorem getCamera_ok (g : List (List LFCam)) (r c : Nat) (row : List LFCam)
    (hr : g[r]? = some row) (h : c < row.length) :
    getCamera g r c = .ok (row.get ⟨c, h⟩) := by
  unfold getCamera
  simp only [hr, List.getElem?_eq_getElem h]
  rfl

/-- `clearSelected` keeps the number of rows. -/
theorem clearSelected_length (g : List (List LFCam)) :
    (clearSelected g).length = g.length := by
  unfold clearSelected
  split
  · rfl
  · exact listModify_length _ _ _

/-- `clearSelected` keeps each row's length. -/
theorem clearSelected_rowLen (g : List (List LFCam)) (i : Nat) :
    ((clearSelected g)[i]?).map List.length = (g[i]?).map List.length := by
  unfold clearSelected
  split
  · rfl
  · rename_i p hp
    show ((setFlag g p.1 p.2 false)[i]?).map List.length = _
    unfold setFlag
    rw [listModify_getElem?]
    by_cases hip : i = p.1
    · rw [if_pos hip]
      cases hg : g[i]? with
      | none => rfl
      | some row => simp [listModify_length]
    · rw [if_neg hip]

/-- C5 (amended).  `setSelectedCamera(row, column)` always fails on an
out-of-bounds pair and always succeeds in bounds, but the raised condition
is the typed `InvalidCameraIndexException` only when the row exists and
the column is out of range; an out-of-range row raises JS's untyped
`TypeError` (indexing into `undefined`) instead. -/
theorem claim_C5 (s : LFState) (row col : Nat) :
    (s.grid.length ≤ row → (setSelectedCamera s row col).2 = some .typeError) ∧
    (∀ rowCams, s.grid[row]? = some rowCams → rowCams.length ≤ col →
        (setSelectedCamera s row col).2 = some .invalidCameraIndex) ∧
    (∀ rowCams, s.grid[row]? = some rowCams → col < rowCams.length →
        (setSelectedCamera s row col).2 = none) := by
  refine ⟨?_, ?_, ?_⟩
  · intro hrow
    have hget := getCamera_row_oob (clearSelected s.grid) row col
      (by rw [clearSelected_length]; exact hrow)
    simp only [setSelectedCamera, setSelectedCameraO, hget]
  · intro rowCams hrc hcol
    have hlen := clearSelected_rowLen s.grid row
    rw [hrc] at hlen
    cases hres : (clearSelected s.grid)[row]? with
    | none =>
      rw [hres] at hlen
      simp at hlen
    | some row' =>
      rw [hres] at hlen
      simp at hlen
      have hget := getCamera_col_oob (clearSelected s.grid) row col row' hres (by omega)
      simp only [setSelectedCamera, setSelectedCameraO, hget]
  · intro rowCams hrc hcol
    have hlen := clearSelected_rowLen s.grid row
    rw [hrc] at hlen
    cases hres : (clearSelected s.grid)[row]? with
    | none =>
      rw [hres] at hlen
      simp at hlen
    | some row' =>
      rw [hres] at hlen
      simp at hlen
      have hget := getCamera_ok (clearSelected s.grid) row col row' hres (by omega)
      simp only [setSelectedCamera, setSelectedCameraO, hget]

/-- Witness for C5 on a freshly initialized 2×2 grid. -/
theorem claim_C5_witness :
    (setSelectedCamera (initCameras (mkLightField (-2) 2 15) 2 2).1 1 5).2
        = some GridError.invalidCameraIndex ∧
    (setSelectedCamera (initCameras (mkLightField (-2) 2 15) 2 2).1 1 1).2 = none ∧
    (setSelectedCamera (initCameras (mkLightField (-2) 2 15) 2 2).1 5 0).2
        = some GridError.typeError :=
  ⟨(claim_C5 _ 1 5).2.1 _ rfl (by decide),
   (claim_C5 _ 1 1).2.2 _ rfl (by decide),
   (claim_C5 _ 5 0).1 (by decide)⟩

/-- Counterexample to C5 as stated: on a 2×2 grid the out-of-bounds pair
`(2, 0)` raises JS's untyped `TypeError`, not the typed
`InvalidCameraIndexException` the claim names. -/
theorem claim_C5_counterexample :
    (setSelectedCamera (initCameras (mkLightField (-2) 2 15) 2 2).1 2 0).2
        = some GridError.typeError ∧
    GridError.typeError ≠ GridError.invalidCameraIndex := by
  constructor
  · decide
  · decide

/-- C10.  A failing `setSelectedCamera` call on a grid with a selected
camera clears that camera's flag before throwing: the grid is left with
zero selected cameras. -/
theorem claim_C10 (s : LFState) (row col : Nat) (s' : LFState) (e : GridError)
    (hone : countSelected s.grid = 1)
    (h : setSelectedCamera s row col = (s', some e)) :
    countSelected s'.grid = 0 := by
  have hclear : selPairs (clearSelected s.grid) = [] :=
    clearSelected_spec s.grid (by omega)
  simp only [setSelectedCamera, setSelectedCameraO] at h
  cases hget : getCamera (clearSelected s.grid) row col with
  | error e' =>
    rw [hget] at h
    have hs : s' = { s with grid := clearSelected s.grid } := (congrArg Prod.fst h).symm
    rw [hs]
    show countSelected (clearSelected s.grid) = 0
    unfold countSelected
    rw [hclear]
    rfl
  | ok cam =>
    rw [hget] at h
    have := congrArg Prod.snd h
    simp at this

/-- Witness for C10 at a concrete failing call. -/
theorem claim_C10_witness :
    countSelected ((setSelectedCamera (initCameras (mkLightField (-2) 2 15) 2 2).1 9 9).1).grid
      = 0 :=
  claim_C10 (initCameras (mkLightField (-2) 2 15) 2 2).1 9 9 _ GridError.typeError
    (by decide) rfl

theorem boolGrid_length (g : List (List LFCam)) : (boolGrid g).length = g.length := by
  simp [boolGrid]

theorem boolGrid_getElem? (g : List (List LFCam)) (r : Nat) :
    (boolGrid g)[r]? = (g[r]?).map (fun row => row.map (fun cam => cam.selected)) := by
  simp [boolGrid]

theorem getCamera_ok_bounds (g : List (List LFCam)) (r c : Nat) (cam : LFCam)
    (h : getCamera g r c = .ok cam) :
    ∃ rowCams, g[r]? = some rowCams ∧ c < rowCams.length := by
  unfold getCamera at h
  cases hr : g[r]? with
  | none =>
    simp only [hr] at h
    exact absurd h (by simp)
  | some rowCams =>
    simp only [hr] at h
    cases hc : rowCams[c]? with
    | none =>
      simp only [hc] at h
      exact absurd h (by simp)
    | some cam' => exact ⟨rowCams, rfl, (List.getElem?_eq_some.mp hc).1⟩

theorem buildGrid_length (px py pz hs vs : ℚ) (h v : Nat) :
    (buildGrid px py pz hs vs h v).length = v := by
  simp [buildGrid]

theorem buildGrid_getElem? (px py pz hs vs : ℚ) (h v r : Nat) (hr : r < v) :
    (buildGrid px py pz hs vs h v)[r]?
      = some ((List.range h).map (fun (column : Nat) =>
          mkLFCam (px + (column : ℚ) * hs) (py - (r : ℚ) * vs) pz)) := by
  unfold buildGrid
  rw [List.getElem?_map, List.getElem?_range hr]
  rfl

theorem buildGrid_selPairs (px py pz hs vs : ℚ) (h v : Nat) :
    selPairs (buildGrid px py pz hs vs h v) = [] := by
  unfold selPairs
  rw [selPairsB_eq_nil_iff]
  intro row hrow x hx
  unfold boolGrid buildGrid at hrow
  simp only [List.map_map, List.mem_map, List.mem_range] at hrow
  obtain ⟨r, -, rfl⟩ := hrow
  simp only [Function.comp, List.map_map, List.mem_map, List.mem_range] at hx
  obtain ⟨cc, -, rfl⟩ := hx
  rfl

/-- Successful selection on a grid with nothing selected: the call
succeeds and exactly `(r, c)` ends up selected. -/
theorem setSelected_fresh_ok (s1 : LFState) (r c : Nat) (rowCams : List LFCam)
    (hall : selPairs s1.grid = [])
    (hr : s1.grid[r]? = some rowCams) (hc : c < rowCams.length) :
    (setSelectedCamera s1 r c).2 = none ∧
    selPairs (setSelectedCamera s1 r c).1.grid = [(r, c)] := by
  have hclr : clearSelected s1.grid = s1.grid := clearSelected_of_none _ hall
  have hget := getCamera_ok s1.grid r c rowCams hr hc
  have hgrid : selPairs (updateCameraColors (setFlag s1.grid r c true)) = [(r, c)] := by
    rw [selPairs_updateColors]
    unfold selPairs
    rw [boolGrid_setFlag]
    apply selPairsB_setTrue
    · exact (selPairsB_eq_nil_iff _).mp hall
    · rw [boolGrid_length]
      exact (List.getElem?_eq_some.mp hr).1
    · rw [boolGrid_getElem?, hr]
      simpa using hc
  constructor
  · simp only [setSelectedCamera, setSelectedCameraO, hclr, hget]
  · simp only [setSelectedCamera, setSelectedCameraO, hclr, hget]
    exact hgrid

/-- Failing selection on a grid with nothing selected: some condition is
raised and the grid is unchanged. -/
theorem setSelected_fresh_err (s1 : LFState) (r? c? : Option Nat)
    (hall : selPairs s1.grid = [])
    (herr : ∀ r c rowCams, r? = some r → c? = some c →
        s1.grid[r]? = some rowCams → rowCams.length ≤ c) :
    (∃ e, (setSelectedCameraO s1 r? c?).2 = some e) ∧
    (setSelectedCameraO s1 r? c?).1.grid = s1.grid := by
  have hclr : clearSelected s1.grid = s1.grid := clearSelected_of_none _ hall
  cases r? with
  | none =>
    constructor
    · exact ⟨.typeError, by simp only [setSelectedCameraO]⟩
    · simp only [setSelectedCameraO, hclr]
  | some r =>
    cases c? with
    | none =>
      cases hrow : s1.grid[r]? with
      | none =>
        constructor
        · exact ⟨.typeError, by simp only [setSelectedCameraO, hclr, hrow]⟩
        · simp only [setSelectedCameraO, hclr, hrow]
      | some rowCams =>
        constructor
        · exact ⟨.invalidCameraIndex, by simp only [setSelectedCameraO, hclr, hrow]⟩
        · simp only [setSelectedCameraO, hclr, hrow]
    | some c =>
      cases hget : getCamera s1.grid r c with
      | ok cam =>
        obtain ⟨rowCams, hrow, hcb⟩ := getCamera_ok_bounds _ _ _ _ hget
        have := herr r c rowCams rfl rfl hrow
        omega
      | error e =>
        constructor
        · exact ⟨e, by simp only [setSelectedCameraO, hclr, hget]⟩
        · simp only [setSelectedCameraO, hclr, hget]

/-- C4.  At most one camera is ever selected: `setSelectedCamera`
preserves the bound, and `initCameras(h, v)` (with at least one row and
column) returns without raising with exactly one camera selected — the
previously selected `(row, column)` when that index exists in the new
grid, otherwise `(0, 0)`. -/
theorem claim_C4 :
    (∀ (s : LFState) (row col : Nat),
       countSelected s.grid ≤ 1 →
       countSelected (setSelectedCamera s row col).1.grid ≤ 1)
    ∧ (∀ (s : LFState) (h v : Nat), countSelected s.grid ≤ 1 → 1 ≤ h → 1 ≤ v →
        (initCameras s h v).2 = none ∧
        countSelected (initCameras s h v).1.grid = 1 ∧
        (∀ r c, selPairs s.grid = [(r, c)] → r < v → c < h →
            selPairs (initCameras s h v).1.grid = [(r, c)]) ∧
        (∀ r c, selPairs s.grid = [(r, c)] → ¬(r < v ∧ c < h) →
            selPairs (initCameras s h v).1.grid = [(0, 0)]) ∧
        (selPairs s.grid = [] → selPairs (initCameras s h v).1.grid = [(0, 0)])) := by
  constructor
  · intro s row col hle
    have hclear : selPairs (clearSelected s.grid) = [] := clearSelected_spec _ hle
    cases hget : getCamera (clearSelected s.grid) row col with
    | error e =>
      simp only [setSelectedCamera, setSelectedCameraO, hget]
      show countSelected (clearSelected s.grid) ≤ 1
      unfold countSelected
      rw [hclear]
      simp
    | ok cam =>
      obtain ⟨rowCams, hrow, hcb⟩ := getCamera_ok_bounds _ _ _ _ hget
      simp only [setSelectedCamera, setSelectedCameraO, hget]
      show countSelected (updateCameraColors (setFlag (clearSelected s.grid) row col true)) ≤ 1
      unfold countSelected
      rw [selPairs_updateColors]
      unfold selPairs
      rw [boolGrid_setFlag]
      rw [selPairsB_setTrue _ row col ((selPairsB_eq_nil_iff _).mp hclear)
        (by rw [boolGrid_length]; exact (List.getElem?_eq_some.mp hrow).1)
        (by rw [boolGrid_getElem?, hrow]; simpa using hcb)]
      simp
  · intro s h v hle hh hv
    have hGall : selPairs (rebuildState s h v).grid = [] := buildGrid_selPairs _ _ _ _ _ _ _
    obtain ⟨row0, hG0, hrow0len⟩ :
        ∃ row0, (rebuildState s h v).grid[0]? = some row0 ∧ row0.length = h :=
      ⟨_, buildGrid_getElem? _ _ _ _ _ _ _ 0 (by omega), by simp⟩
    have hok00 := setSelected_fresh_ok (rebuildState s h v) 0 0 row0 hGall hG0 (by omega)
    by_cases hempty : s.grid.length = 0
    · have hnil : s.grid = [] := List.length_eq_zero.mp hempty
      have hspnil : selPairs s.grid = [] := by rw [hnil]; rfl
      rcases hres : setSelectedCameraO (rebuildState s h v) (some 0) (some 0) with ⟨s2, e2⟩
      have he2 : e2 = none := by
        have := hok00.1
        unfold setSelectedCamera at this
        rw [hres] at this
        exact this
      subst he2
      have heval : initCameras s h v = (s2, none) := by
        simp only [initCameras, if_pos hempty, hres]
      have hsel2 : selPairs s2.grid = [(0, 0)] := by
        have := hok00.2
        unfold setSelectedCamera at this
        rw [hres] at this
        exact this
      refine ⟨by rw [heval], ?_, ?_, ?_, ?_⟩
      · rw [heval]
        unfold countSelected
        rw [hsel2]
        rfl
      · intro r c hrc
        rw [hspnil] at hrc
        exact absurd hrc (by simp)
      · intro r c hrc
        rw [hspnil] at hrc
        exact absurd hrc (by simp)
      · intro
        rw [heval]
        exact hsel2
    · rcases hsp : selPairs s.grid with _ | ⟨p, rest⟩
      · obtain ⟨⟨e1, he1⟩, hgrid1⟩ := setSelected_fresh_err (rebuildState s h v) none none
          hGall (by intro r c rowCams hr hc hrow; exact absurd hr (by simp))
        rcases hres : setSelectedCameraO (rebuildState s h v) none none with ⟨s2, e2⟩
        have he2 : e2 = some e1 := by rw [hres] at he1; exact he1
        subst he2
        have hs2grid : s2.grid = (rebuildState s h v).grid := by rw [hres] at hgrid1; exact hgrid1
        have hok00' := setSelected_fresh_ok s2 0 0 row0 (by rw [hs2grid]; exact hGall)
          (by rw [hs2grid]; exact hG0) (by omega)
        rcases hres2 : setSelectedCameraO s2 (some 0) (some 0) with ⟨s3, e3⟩
        have he3 : e3 = none := by
          have := hok00'.1
          unfold setSelectedCamera at this
          rw [hres2] at this
          exact this
        subst he3
        have hsel3 : selPairs s3.grid = [(0, 0)] := by
          have := hok00'.2
          unfold setSelectedCamera at this
          rw [hres2] at this
          exact this
        have heval : initCameras s h v = (s3, none) := by
          simp only [initCameras, if_neg hempty, hsp, hres, hres2]
        refine ⟨by rw [heval], ?_, ?_, ?_, ?_⟩
        · rw [heval]
          unfold countSelected
          rw [hsel3]
          rfl
        · intro r c hrc
          exact absurd hrc (by simp)
        · intro r c hrc
          exact absurd hrc (by simp)
        · intro
          rw [heval]
          exact hsel3
      · have hrest : rest = [] := by
          unfold countSelected at hle
          rw [hsp] at hle
          simp at hle
          exact hle
        subst hrest
        by_cases hfit : p.1 < v ∧ p.2 < h
        · obtain ⟨rowR, hGr, hlenR⟩ :
              ∃ rowR, (rebuildState s h v).grid[p.1]? = some rowR ∧ rowR.length = h :=
            ⟨_, buildGrid_getElem? _ _ _ _ _ _ _ p.1 hfit.1, by simp⟩
          have hokP := setSelected_fresh_ok (rebuildState s h v) p.1 p.2 rowR hGall hGr
            (by omega)
          rcases hres : setSelectedCameraO (rebuildState s h v) (some p.1) (some p.2)
            with ⟨s2, e2⟩
          have he2 : e2 = none := by
            have := hokP.1
            unfold setSelectedCamera at this
            rw [hres] at this
            exact this
          subst he2
          have hsel2 : selPairs s2.grid = [(p.1, p.2)] := by
            have := hokP.2
            unfold setSelectedCamera at this
            rw [hres] at this
            exact this
          have heval : initCameras s h v = (s2, none) := by
            simp only [initCameras, if_neg hempty, hsp, hres]
          refine ⟨by rw [heval], ?_, ?_, ?_, ?_⟩
          · rw [heval]
            unfold countSelected
            rw [hsel2]
            rfl
          · intro r c hrc hrv hch
            have hp : p = (r, c) := by simpa using hrc
            rw [heval]
            show selPairs s2.grid = [(r, c)]
            rw [hsel2, hp]
          · intro r c hrc hnfit
            have hp : p = (r, c) := by simpa using hrc
            exact absurd (by rw [hp] at hfit; exact hfit) hnfit
          · intro hnil
            exact absurd hnil (by simp)
        · have herr : ∀ r c rowCams, (some p.1 : Option Nat) = some r →
              (some p.2 : Option Nat) = some c →
              (rebuildState s h v).grid[r]? = some rowCams → rowCams.length ≤ c := by
            intro r c rowCams hr hc hrow
            cases hr
            cases hc
            by_cases hpv : p.1 < v
            · rw [show (rebuildState s h v).grid = buildGrid s.posX s.posY s.posZ
                  s.horizontalCameraSpace s.verticalCameraSpace h v from rfl,
                buildGrid_getElem? _ _ _ _ _ _ _ p.1 hpv] at hrow
              have hlen : rowCams.length = h := by
                rw [← Option.some.inj hrow]
                simp
              omega
            · have : (rebuildState s h v).grid[p.1]? = none := by
                apply List.getElem?_eq_none
                rw [show (rebuildState s h v).grid.length = v from buildGrid_length _ _ _ _ _ _ _]
                omega
              rw [this] at hrow
              exact absurd hrow (by simp)
          obtain ⟨⟨e1, he1⟩, hgrid1⟩ :=
            setSelected_fresh_err (rebuildState s h v) (some p.1) (some p.2) hGall herr
          rcases hres : setSelectedCameraO (rebuildState s h v) (some p.1) (some p.2)
            with ⟨s2, e2⟩
          have he2 : e2 = some e1 := by rw [hres] at he1; exact he1
          subst he2
          have hs2grid : s2.grid = (rebuildState s h v).grid := by
            rw [hres] at hgrid1
            exact hgrid1
          have hok00' := setSelected_fresh_ok s2 0 0 row0 (by rw [hs2grid]; exact hGall)
            (by rw [hs2grid]; exact hG0) (by omega)
          rcases hres2 : setSelectedCameraO s2 (some 0) (some 0) with ⟨s3, e3⟩
          have he3 : e3 = none := by
            have := hok00'.1
            unfold setSelectedCamera at this
            rw [hres2] at this
            exact this
          subst he3
          have hsel3 : selPairs s3.grid = [(0, 0)] := by
            have := hok00'.2
            unfold setSelectedCamera at this
            rw [hres2] at this
            exact this
          have heval : initCameras s h v = (s3, none) := by
            simp only [initCameras, if_neg hempty, hsp, hres, hres2]
          refine ⟨by rw [heval], ?_, ?_, ?_, ?_⟩
          · rw [heval]
            unfold countSelected
            rw [hsel3]
            rfl
          · intro r c hrc hrv hch
            have hp : p = (r, c) := by simpa using hrc
            exact absurd ⟨by rw [hp]; exact hrv, by rw [hp]; exact hch⟩ hfit
          · intro r c hrc hnfit
            rw [heval]
            exact hsel3
          · intro hnil
            exact absurd hnil (by simp)

/-- Witness for C4: re-initializing a 3×3 grid to 2×2 after selecting
camera (1, 1) keeps (1, 1) selected. -/
theorem claim_C4_witness :
    (initCameras (setSelectedCamera (initCameras (mkLightField (-2) 2 15) 3 3).1 1 1).1 2 2).2
        = none ∧
    countSelected
      (initCameras (setSelectedCamera (initCameras (mkLightField (-2) 2 15) 3 3).1 1 1).1
        2 2).1.grid = 1 :=
  ⟨((claim_C4.2 _ 2 2 (by decide) (by decide) (by decide)).1),
   ((claim_C4.2 _ 2 2 (by decide) (by decide) (by decide)).2.1)⟩

theorem bumpColor_rgbsum (it : Nat) (c : RGBA) :
    rgbsum (bumpColor it c) = rgbsum c + 1 := by
  unfold bumpColor
  split_ifs <;> simp [rgbsum] <;> omega

theorem bumpColor_r_le (it : Nat) (c : RGBA) (h : c.r ≤ (it + 2) / 3) :
    (bumpColor it c).r ≤ (it + 1 + 2) / 3 := by
  unfold bumpColor
  split_ifs with h1 h2 <;> simp <;> omega

theorem nonSelColors_cons (row : List LFCam) (rest : List (List LFCam)) :
    nonSelColors (row :: rest) = nonSelColorsRow row ++ nonSelColors rest := by
  unfold nonSelColors nonSelColorsRow
  simp [List.filter_append, List.map_append]

theorem flatten_length_modify (fn : List LFCam → List LFCam)
    (hfn : ∀ row, (fn row).length = row.length) (r : Nat) (g : List (List LFCam)) :
    ((listModify fn r g).flatten).length = (g.flatten).length := by
  induction g generalizing r with
  | nil => cases r <;> rfl
  | cons row rest ih =>
    cases r with
    | zero => simp [listModify, hfn]
    | succ r => simp [listModify, ih]

theorem flatten_length_setFlag (g : List (List LFCam)) (r c : Nat) (b : Bool) :
    ((setFlag g r c b).flatten).length = (g.flatten).length :=
  flatten_length_modify _ (fun _ => listModify_length _ _ _) r g

theorem flatten_length_clear (g : List (List LFCam)) :
    ((clearSelected g).flatten).length = (g.flatten).length := by
  unfold clearSelected
  split
  · rfl
  · exact flatten_length_setFlag g _ _ false

theorem flatten_length_le (g : List (List LFCam)) (a b : Nat)
    (h1 : g.length ≤ a) (h2 : ∀ r ∈ g, r.length ≤ b) :
    (g.flatten).length ≤ a * b := by
  induction g generalizing a with
  | nil => simp
  | cons row rest ih =>
    cases a with
    | zero => simp at h1
    | succ a =>
      have := ih a (by simpa using h1) (fun r hr => h2 r (by simp [hr]))
      have hrow := h2 row (by simp)
      simp only [List.flatten_cons, List.length_append]
      calc row.length + (rest.flatten).length ≤ b + a * b := by omega
        _ = (a + 1) * b := by ring

theorem buildGrid_flatten_length (px py pz hs vs : ℚ) (h v : Nat) :
    ((buildGrid px py pz hs vs h v).flatten).length = v * h := by
  unfold buildGrid
  rw [List.length_flatten]
  induction v with
  | zero => simp
  | succ v ih =>
    rw [List.range_succ]
    simp only [List.map_append, List.sum_append, ih]
    simp
    ring

theorem updateCamsList_spec (cams : List LFCam) : ∀ (it : Nat) (c : RGBA),
    c.r ≤ (it + 2) / 3 →
    (updateCamsList it c cams).2.1 = it + cams.length ∧
    rgbsum c ≤ rgbsum (updateCamsList it c cams).2.2 ∧
    (updateCamsList it c cams).2.2.r ≤ (it + cams.length + 2) / 3 ∧
    (∀ o ∈ nonSelColorsRow (updateCamsList it c cams).1,
       ∃ cc, o = some cc ∧ rgbsum c < rgbsum cc ∧
         rgbsum cc ≤ rgbsum (updateCamsList it c cams).2.2 ∧
         cc.r ≤ (it + cams.length + 2) / 3) ∧
    List.Pairwise colorLt (nonSelColorsRow (updateCamsList it c cams).1) := by
  induction cams with
  | nil =>
    intro it c hc
    refine ⟨rfl, le_refl _, by simpa using hc, ?_, ?_⟩
    · intro o ho
      simp [updateCamsList, nonSelColorsRow] at ho
    · simp [updateCamsList, nonSelColorsRow]
  | cons cam rest ih =>
    intro it c hc
    by_cases hsel : cam.selected
    · have hc' : c.r ≤ (it + 1 + 2) / 3 := by omega
      obtain ⟨h1, h2, h3, h4, h5⟩ := ih (it + 1) c hc'
      have hunf1 : (updateCamsList it c (cam :: rest)).1
          = { cam with color := some selectedColor } :: (updateCamsList (it + 1) c rest).1 := by
        simp [updateCamsList, hsel]
      have hunf2 : (updateCamsList it c (cam :: rest)).2
          = (updateCamsList (it + 1) c rest).2 := by
        simp [updateCamsList, hsel]
      have hrow : nonSelColorsRow ((updateCamsList it c (cam :: rest)).1)
          = nonSelColorsRow ((updateCamsList (it + 1) c rest).1) := by
        rw [hunf1]
        simp [nonSelColorsRow, hsel]
      refine ⟨?_, ?_, ?_, ?_, ?_⟩
      · rw [hunf2, h1, List.length_cons]
        omega
      · rw [hunf2]
        exact h2
      · rw [hunf2, List.length_cons]
        omega
      · intro o ho
        rw [hrow] at ho
        rw [hunf2, List.length_cons]
        obtain ⟨cc, rfl, hlt, hle, hr⟩ := h4 o ho
        exact ⟨cc, rfl, hlt, hle, by omega⟩
      · rw [hrow]
        exact h5
    · have hsel' : cam.selected = false := by simpa using hsel
      have hb : (bumpColor it c).r ≤ (it + 1 + 2) / 3 := bumpColor_r_le it c hc
      obtain ⟨h1, h2, h3, h4, h5⟩ := ih (it + 1) (bumpColor it c) hb
      have hunf1 : (updateCamsList it c (cam :: rest)).1
          = { cam with color := some (bumpColor it c) }
              :: (updateCamsList (it + 1) (bumpColor it c) rest).1 := by
        simp [updateCamsList, hsel']
      have hunf2 : (updateCamsList it c (cam :: rest)).2
          = (updateCamsList (it + 1) (bumpColor it c) rest).2 := by
        simp [updateCamsList, hsel']
      have hrow : nonSelColorsRow ((updateCamsList it c (cam :: rest)).1)
          = some (bumpColor it c)
              :: nonSelColorsRow ((updateCamsList (it + 1) (bumpColor it c) rest).1) := by
        rw [hunf1]
        simp [nonSelColorsRow, hsel']
      have hsum : rgbsum c < rgbsum (bumpColor it c) := by
        rw [bumpColor_rgbsum]
        omega
      refine ⟨?_, ?_, ?_, ?_, ?_⟩
      · rw [hunf2, h1, List.length_cons]
        omega
      · rw [hunf2]
        exact le_trans (le_of_lt hsum) h2
      · rw [hunf2, List.length_cons]
        omega
      · intro o ho
        rw [hunf2, List.length_cons]
        rw [hrow] at ho
        rcases List.mem_cons.mp ho with hhead | htail
        · exact ⟨bumpColor it c, hhead, hsum, h2, by omega⟩
        · obtain ⟨cc, rfl, hlt, hle, hr⟩ := h4 o htail
          exact ⟨cc, rfl, lt_trans hsum hlt, hle, by omega⟩
      · rw [hrow]
        refine List.pairwise_cons.mpr ⟨?_, h5⟩
        intro o ho
        obtain ⟨cc, rfl, hlt, hle, hr⟩ := h4 o ho
        exact ⟨bumpColor it c, cc, rfl, rfl, hlt⟩

theorem updateCamsRows_spec (rows : List (List LFCam)) : ∀ (it : Nat) (c : RGBA),
    c.r ≤ (it + 2) / 3 →
    (updateCamsRows it c rows).2.1 = it + (rows.flatten).length ∧
    rgbsum c ≤ rgbsum (updateCamsRows it c rows).2.2 ∧
    (updateCamsRows it c rows).2.2.r ≤ (it + (rows.flatten).length + 2) / 3 ∧
    (∀ o ∈ nonSelColors (updateCamsRows it c rows).1,
       ∃ cc, o = some cc ∧ rgbsum c < rgbsum cc ∧
         rgbsum cc ≤ rgbsum (updateCamsRows it c rows).2.2 ∧
         cc.r ≤ (it + (rows.flatten).length + 2) / 3) ∧
    List.Pairwise colorLt (nonSelColors (updateCamsRows it c rows).1) := by
  induction rows with
  | nil =>
    intro it c hc
    refine ⟨rfl, le_refl _, by simpa using hc, ?_, ?_⟩
    · intro o ho
      simp [updateCamsRows, nonSelColors] at ho
    · simp [updateCamsRows, nonSelColors]
  | cons row rest ih =>
    intro it c hc
    obtain ⟨a1, a2, a3, a4, a5⟩ := updateCamsList_spec row it c hc
    have hb : (updateCamsList it c row).2.2.r ≤ ((updateCamsList it c row).2.1 + 2) / 3 := by
      rw [a1]
      exact a3
    obtain ⟨b1, b2, b3, b4, b5⟩ :=
      ih (updateCamsList it c row).2.1 (updateCamsList it c row).2.2 hb
    have hunf1 : (updateCamsRows it c (row :: rest)).1
        = (updateCamsList it c row).1
            :: (updateCamsRows (updateCamsList it c row).2.1
                 (updateCamsList it c row).2.2 rest).1 := by
      simp [updateCamsRows]
    have hunf2 : (updateCamsRows it c (row :: rest)).2
        = (updateCamsRows (updateCamsList it c row).2.1
            (updateCamsList it c row).2.2 rest).2 := by
      simp [updateCamsRows]
    have hflen : (((row :: rest).flatten)).length = row.length + ((rest.flatten)).length := by
      simp
    rw [a1] at b1 b2 b3 b4 b5 hunf1 hunf2
    refine ⟨?_, ?_, ?_, ?_, ?_⟩
    · rw [hunf2, b1, hflen]
      omega
    · rw [hunf2]
      exact le_trans a2 b2
    · rw [hunf2, hflen]
      omega
    · intro o ho
      rw [hunf1, nonSelColors_cons] at ho
      rw [hunf2, hflen]
      rcases List.mem_append.mp ho with hh | ht
      · obtain ⟨cc, rfl, hlt, hle, hr⟩ := a4 o hh
        exact ⟨cc, rfl, hlt, le_trans hle b2, by omega⟩
      · obtain ⟨cc, rfl, hlt, hle, hr⟩ := b4 o ht
        exact ⟨cc, rfl, lt_of_le_of_lt a2 hlt, hle, by omega⟩
    · rw [hunf1, nonSelColors_cons]
      refine List.pairwise_append.mpr ⟨a5, b5, ?_⟩
      intro x hx y hy
      obtain ⟨c1, rfl, _, hle1, _⟩ := a4 x hx
      obtain ⟨c2, rfl, hlt2, _, _⟩ := b4 y hy
      exact ⟨c1, c2, rfl, rfl, lt_of_le_of_lt hle1 hlt2⟩

theorem updateCameraColors_good (grid : List (List LFCam))
    (hn : ((grid.flatten)).length ≤ 256) :
    List.Pairwise (fun o1 o2 => o1 ≠ o2) (nonSelColors (updateCameraColors grid)) ∧
    ∀ o ∈ nonSelColors (updateCameraColors grid), o ≠ some selectedColor := by
  obtain ⟨h1, h2, h3, h4, h5⟩ :=
    updateCamsRows_spec grid 1 ⟨0, 0, 0, 255⟩ (by simp)
  constructor
  · refine h5.imp ?_
    rintro a b ⟨c1, c2, rfl, rfl, hlt⟩ heq
    cases Option.some.inj heq
    omega
  · intro o ho heq
    obtain ⟨cc, rfl, -, -, hr⟩ := h4 o ho
    cases Option.some.inj heq
    have h86 : (1 + ((grid.flatten)).length + 2) / 3 ≤ 86 := by omega
    have : (255 : Nat) ≤ 86 := le_trans hr h86
    omega

theorem setSelectedCameraO_success_grid (s1 : LFState) (r? c? : Option Nat) (s2 : LFState)
    (h : setSelectedCameraO s1 r? c? = (s2, none)) :
    ∃ r c, s2.grid = updateCameraColors (setFlag (clearSelected s1.grid) r c true) := by
  cases r? with
  | none =>
    simp only [setSelectedCameraO] at h
    injection h with h1 h2
    exact Option.noConfusion h2
  | some row =>
    cases c? with
    | none =>
      simp only [setSelectedCameraO] at h
      split at h <;> (injection h with h1 h2; exact Option.noConfusion h2)
    | some col =>
      simp only [setSelectedCameraO] at h
      split at h
      · injection h with h1 h2
        exact Option.noConfusion h2
      · injection h with h1 h2
        exact ⟨row, col, by rw [← h1]⟩

theorem setSelectedCameraO_error_grid (s1 : LFState) (r? c? : Option Nat) (s2 : LFState)
    (e : GridError) (h : setSelectedCameraO s1 r? c? = (s2, some e)) :
    s2.grid = clearSelected s1.grid := by
  cases r? with
  | none =>
    simp only [setSelectedCameraO] at h
    injection h with h1 h2
    rw [← h1]
  | some row =>
    cases c? with
    | none =>
      simp only [setSelectedCameraO] at h
      split at h <;> (injection h with h1 h2; rw [← h1])
    | some col =>
      simp only [setSelectedCameraO] at h
      split at h
      · injection h with h1 h2
        rw [← h1]
      · injection h with h1 h2
        exact Option.noConfusion h2

theorem initCameras_success_grid (s : LFState) (h v : Nat) (s' : LFState)
    (hres : initCameras s h v = (s', none)) :
    ∃ r c base, ((base.flatten)).length = ((((rebuildState s h v).grid).flatten)).length ∧
      s'.grid = updateCameraColors (setFlag (clearSelected base) r c true) := by
  simp only [initCameras] at hres
  split at hres
  · rename_i s2 heq
    injection hres with hh1 hh2
    obtain ⟨r, c, hg⟩ := setSelectedCameraO_success_grid _ _ _ _ heq
    exact ⟨r, c, (rebuildState s h v).grid, rfl, by rw [← hh1]; exact hg⟩
  · rename_i s2 e heq
    obtain ⟨r, c, hg⟩ := setSelectedCameraO_success_grid _ _ _ _ hres
    have hs2 := setSelectedCameraO_error_grid _ _ _ _ _ heq
    exact ⟨r, c, s2.grid, by rw [hs2, flatten_length_clear], hg⟩

/-- C6: after any successful `setSelectedCamera` on a grid within the
configured 1..16 × 1..16 bounds, and after any successful `initCameras`
with requested counts within those bounds, the picking colors of the
non-selected cameras are pairwise distinct and none of them equals the
reserved highlight color `[255, 0, 0, 255]`. -/
theorem claim_C6 :
    (∀ (s : LFState) (row col : Nat) (s' : LFState),
        s.grid.length ≤ 16 → (∀ r ∈ s.grid, r.length ≤ 16) →
        setSelectedCamera s row col = (s', none) →
        List.Pairwise (fun o1 o2 => o1 ≠ o2) (nonSelColors s'.grid) ∧
        ∀ o ∈ nonSelColors s'.grid, o ≠ some selectedColor)
    ∧ (∀ (s : LFState) (h v : Nat) (s' : LFState),
        h ≤ 16 → v ≤ 16 → initCameras s h v = (s', none) →
        List.Pairwise (fun o1 o2 => o1 ≠ o2) (nonSelColors s'.grid) ∧
        ∀ o ∈ nonSelColors s'.grid, o ≠ some selectedColor) := by
  constructor
  · intro s row col s' hd1 hd2 hsucc
    obtain ⟨r, c, hg⟩ := setSelectedCameraO_success_grid s (some row) (some col) s' hsucc
    rw [hg]
    apply updateCameraColors_good
    rw [flatten_length_setFlag, flatten_length_clear]
    have := flatten_length_le s.grid 16 16 hd1 hd2
    omega
  · intro s h v s' hh hv hsucc
    obtain ⟨r, c, base, hlen, hg⟩ := initCameras_success_grid s h v s' hsucc
    rw [hg]
    apply updateCameraColors_good
    rw [flatten_length_setFlag, flatten_length_clear, hlen]
    rw [show (rebuildState s h v).grid = buildGrid s.posX s.posY s.posZ
          s.horizontalCameraSpace s.verticalCameraSpace h v from rfl,
        buildGrid_flatten_length]
    exact le_trans (Nat.mul_le_mul hv hh) (by norm_num)

/-- Witness for C6: a concrete 2×2 grid, initialised and reselected at
`(1, 1)`, with the hypotheses of the claim theorem discharged by
computation. -/
theorem claim_C6_witness :
    ((initCameras (mkLightField 0 0 0) 2 2).1.grid.length ≤ 16
      ∧ (∀ r ∈ (initCameras (mkLightField 0 0 0) 2 2).1.grid, r.length ≤ 16)
      ∧ setSelectedCamera (initCameras (mkLightField 0 0 0) 2 2).1 1 1
          = ((setSelectedCamera (initCameras (mkLightField 0 0 0) 2 2).1 1 1).1, none))
    ∧ (List.Pairwise (fun o1 o2 => o1 ≠ o2)
        (nonSelColors (setSelectedCamera (initCameras (mkLightField 0 0 0) 2 2).1 1 1).1.grid)
      ∧ ∀ o ∈ nonSelColors
            (setSelectedCamera (initCameras (mkLightField 0 0 0) 2 2).1 1 1).1.grid,
          o ≠ some selectedColor) := by
  have h2 : (setSelectedCamera (initCameras (mkLightField 0 0 0) 2 2).1 1 1).2 = none := by
    rfl
  have hsucc : setSelectedCamera (initCameras (mkLightField 0 0 0) 2 2).1 1 1
      = ((setSelectedCamera (initCameras (mkLightField 0 0 0) 2 2).1 1 1).1, none) := by
    rw [← h2]
  exact ⟨⟨by decide, by decide, hsucc⟩, claim_C6.1 _ 1 1 _ (by decide) (by decide) hsucc⟩

theorem faceTangent_length (sqrtq : ℚ → ℚ) (position texcoord : List ℚ) (i : Nat) :
    (faceTangent sqrtq position texcoord i).length = 3 := by
  simp only [faceTangent]
  split
  · rfl
  · simp [vnormalize3]

theorem flatMap_range_chunk (f : Nat → List ℚ) (c : Nat) (hf : ∀ j, (f j).length = c)
    (n i : Nat) (hi : i < n) :
    ((((List.range n).flatMap f).drop (c * i)).take c) = f i := by
  have hn : n = i + (n - i) := by omega
  rw [hn, List.range_add, List.flatMap_append]
  have hlen : ((List.range i).flatMap f).length = c * i := by
    rw [flatMap_length_const _ f c (fun x _ => hf x), List.length_range]
  rw [show c * i = ((List.range i).flatMap f).length from hlen.symm, List.drop_left]
  rw [show n - i = 1 + (n - i - 1) from by omega, List.range_add, List.map_append,
    List.flatMap_append]
  rw [show List.range 1 = [0] from rfl]
  simp only [List.map_cons, List.map_nil, List.flatMap_cons, List.flatMap_nil,
    List.append_nil, Nat.add_zero]
  rw [show c = (f i).length from (hf i).symm, List.take_left]

theorem faceTangent_of_det_eq_zero (sqrtq : ℚ → ℚ) (position texcoord : List ℚ) (i : Nat)
    (h : faceDet texcoord i = 0) :
    faceTangent sqrtq position texcoord i = [1, 0, 0] := by
  simp only [faceDet] at h
  simp only [faceTangent]
  rw [if_pos h]

/-- C7: a face whose UV-delta determinant vanishes gets the constant
fallback tangent `(1, 0, 0)` for all three of its vertices (chunk `i` of
the tangent array is `[1,0,0,1,0,0,1,0,0]`), and the output stays well
defined: when every face is degenerate, every emitted component is
literally `1` or `0`, never a NaN or an infinity. -/
theorem claim_C7 (sqrtq : ℚ → ℚ) (position texcoord : List ℚ) :
    (∀ i, i < (position.length + 8) / 9 →
        faceDet texcoord i = 0 →
        (((generateTangents sqrtq position texcoord).drop (9 * i)).take 9)
          = [1, 0, 0, 1, 0, 0, 1, 0, 0]) ∧
    ((∀ i, i < (position.length + 8) / 9 → faceDet texcoord i = 0) →
        ∀ q ∈ generateTangents sqrtq position texcoord, q = 1 ∨ q = 0) := by
  constructor
  · intro i hi h
    have hchunk := flatMap_range_chunk
      (fun j => faceTangent sqrtq position texcoord j ++ faceTangent sqrtq position texcoord j
        ++ faceTangent sqrtq position texcoord j) 9
      (fun j => by simp [faceTangent_length]) ((position.length + 8) / 9) i hi
    rw [show generateTangents sqrtq position texcoord
        = (List.range ((position.length + 8) / 9)).flatMap
            (fun j => faceTangent sqrtq position texcoord j
              ++ faceTangent sqrtq position texcoord j
              ++ faceTangent sqrtq position texcoord j) from rfl, hchunk]
    simp [faceTangent_of_det_eq_zero sqrtq position texcoord i h]
  · intro hall q hq
    simp only [generateTangents, List.mem_flatMap, List.mem_range] at hq
    obtain ⟨j, hj, hqj⟩ := hq
    rw [faceTangent_of_det_eq_zero sqrtq position texcoord j (hall j hj)] at hqj
    simp only [List.append_assoc, List.mem_append, List.mem_cons, List.not_mem_nil,
      or_false] at hqj
    tauto

/-- Witness for C7: one triangle with all-zero texture coordinates. -/
theorem claim_C7_witness :
    (0 < ((List.replicate 9 (0 : ℚ)).length + 8) / 9
      ∧ faceDet (List.replicate 6 (0 : ℚ)) 0 = 0)
    ∧ ((generateTangents (fun q => q) (List.replicate 9 (0 : ℚ))
          (List.replicate 6 (0 : ℚ))).drop (9 * 0)).take 9
        = [1, 0, 0, 1, 0, 0, 1, 0, 0] := by
  have hdet0 : faceDet (List.replicate 6 (0 : ℚ)) 0 = 0 := by
    simp [faceDet, sliceJS, vsub2, comp]
  refine ⟨⟨by decide, hdet0⟩, ?_⟩
  exact (claim_C7 (fun q => q) (List.replicate 9 (0 : ℚ)) (List.replicate 6 (0 : ℚ))).1
    0 (by decide) hdet0

theorem applyOp_proj_of_not (mf : MathFns) (c : Camera) (op : CamOp)
    (h : isSetPerspective op = false) :
    (applyOp mf c op)._projectionMatrix = c._projectionMatrix := by
  cases op with
  | setPerspective a b c' d => simp [isSetPerspective] at h
  | lookAt t u => rfl
  | lookAtDefault => rfl
  | move p => rfl
  | moveDefault => rfl
  | setPosition p => rfl

theorem applyOp_proj_of_sp (mf : MathFns) (c : Camera) (op : CamOp)
    (h : isSetPerspective op = true) :
    ∃ m, (applyOp mf c op)._projectionMatrix = some m := by
  cases op with
  | setPerspective a b c' d => exact ⟨_, rfl⟩
  | lookAt t u => simp [isSetPerspective] at h
  | lookAtDefault => simp [isSetPerspective] at h
  | move p => simp [isSetPerspective] at h
  | moveDefault => simp [isSetPerspective] at h
  | setPosition p => simp [isSetPerspective] at h

theorem runOps_proj_none (mf : MathFns) (ops : List CamOp) : ∀ (c : Camera),
    c._projectionMatrix = none → (∀ op ∈ ops, isSetPerspective op = false) →
    (runOps mf c ops)._projectionMatrix = none := by
  induction ops with
  | nil =>
    intro c hc _
    exact hc
  | cons op rest ih =>
    intro c hc hall
    exact ih (applyOp mf c op)
      (by rw [applyOp_proj_of_not mf c op (hall op (by simp))]; exact hc)
      (fun o ho => hall o (by simp [ho]))

theorem runOps_proj_some (mf : MathFns) (ops : List CamOp) : ∀ (c : Camera),
    ((∃ m, c._projectionMatrix = some m) ∨ (∃ op ∈ ops, isSetPerspective op = true)) →
    ∃ m, (runOps mf c ops)._projectionMatrix = some m := by
  induction ops with
  | nil =>
    intro c h
    rcases h with h | ⟨op, hop, _⟩
    · exact h
    · simp at hop
  | cons op rest ih =>
    intro c h
    apply ih (applyOp mf c op)
    rcases h with ⟨m, hm⟩ | ⟨o, ho, hsp⟩
    · by_cases hspo : isSetPerspective op = true
      · exact Or.inl (applyOp_proj_of_sp mf c op hspo)
      · refine Or.inl ?_
        rw [applyOp_proj_of_not mf c op (by simpa using hspo)]
        exact ⟨m, hm⟩
    · rcases List.mem_cons.mp ho with rfl | ho'
      · exact Or.inl (applyOp_proj_of_sp mf c o hsp)
      · exact Or.inr ⟨o, ho', hsp⟩

/-- C9: starting from the constructor, a call history without
`setPerspective` makes every read of the view-projection matrix (direct
or via `getWorldViewProjectionMatrix`) raise the invalid-state
condition; a history containing at least one `setPerspective` makes
both reads succeed. -/
theorem claim_C9 (mf : MathFns) (x y z : ℚ) (ops : List CamOp) (world : List ℚ) :
    ((∀ op ∈ ops, isSetPerspective op = false) →
        viewProjectionMatrix (runOps mf (mkCamera x y z) ops)
          = .error .invalidCameraState
      ∧ getWorldViewProjectionMatrix (runOps mf (mkCamera x y z) ops) world
          = .error .invalidCameraState)
    ∧ ((∃ op ∈ ops, isSetPerspective op = true) →
        (∃ m, viewProjectionMatrix (runOps mf (mkCamera x y z) ops) = .ok m)
      ∧ (∃ m, getWorldViewProjectionMatrix (runOps mf (mkCamera x y z) ops) world
          = .ok m)) := by
  constructor
  · intro hall
    have hnone := runOps_proj_none mf ops (mkCamera x y z) rfl hall
    constructor
    · simp [viewProjectionMatrix, hnone]
    · simp [getWorldViewProjectionMatrix, viewProjectionMatrix, hnone]
  · intro hex
    obtain ⟨m, hm⟩ := runOps_proj_some mf ops (mkCamera x y z) (Or.inr hex)
    refine ⟨⟨mat4multiply m (runOps mf (mkCamera x y z) ops)._matrix, ?_⟩,
      ⟨mat4multiply (mat4multiply m (runOps mf (mkCamera x y z) ops)._matrix) world, ?_⟩⟩
    · simp [viewProjectionMatrix, hm]
    · simp [getWorldViewProjectionMatrix, viewProjectionMatrix, hm]

/-- Witness for C9: the empty history raises, a one-`setPerspective`
history succeeds. -/
theorem claim_C9_witness :
    ((∀ op ∈ ([] : List CamOp), isSetPerspective op = false)
      ∧ viewProjectionMatrix
          (runOps ⟨fun q => q, fun q => q, fun q => q, fun q => q, fun a b c => a + b + c⟩
            (mkCamera 0 0 0) [])
          = .error .invalidCameraState)
    ∧ ((∃ op ∈ [CamOp.setPerspective 1 1 1 2], isSetPerspective op = true)
      ∧ ∃ m, viewProjectionMatrix
          (runOps ⟨fun q => q, fun q => q, fun q => q, fun q => q, fun a b c => a + b + c⟩
            (mkCamera 0 0 0) [CamOp.setPerspective 1 1 1 2])
          = .ok m) := by
  constructor
  · exact ⟨by simp, ((claim_C9 _ 0 0 0 [] mat4create).1 (by simp)).1⟩
  · exact ⟨⟨CamOp.setPerspective 1 1 1 2, by simp, rfl⟩,
      ((claim_C9 _ 0 0 0 [CamOp.setPerspective 1 1 1 2] mat4create).2
        ⟨CamOp.setPerspective 1 1 1 2, by simp, rfl⟩).1⟩

/-- Witness for C3 at concrete `v` lines. -/
theorem claim_C3_witness :
    (∃ s', addObjData initState (.v [1, 2, 3]) = some s' ∧
        s'.objPositions = initState.objPositions ++ [[1, 2, 3]] ∧
        s'.objPositions.length = initState.objPositions.length + 1 ∧
        s'.objColors = initState.objColors)
    ∧ (∃ s', addObjData initState (.v [1, 2, 3, 4, 5]) = some s' ∧
        s'.objPositions = initState.objPositions ++ [[1, 2, 3, 4, 5].take 3] ∧
        ([(1 : ℚ), 2, 3, 4, 5].take 3).length = 3 ∧
        s'.objColors = initState.objColors ++ [[1, 2, 3, 4, 5].drop 3] ∧
        [(1 : ℚ), 2, 3, 4, 5].take 3 ++ [(1 : ℚ), 2, 3, 4, 5].drop 3 = [1, 2, 3, 4, 5]) :=
  ⟨claim_C3.1 initState [1, 2, 3] (by decide), claim_C3.2 initState [1, 2, 3, 4, 5] (by decide)⟩

end IBT

